import Mathlib

/-!
Verification of the geometric core of the `rust_3d_course` renderer.

The Rust source works on `f64`; here the arithmetic is embedded over `ℚ`
(exact arithmetic), except where a square root is essential, in which case a
parallel embedding over `ℝ` is used.  `std::f64::EPSILON` is the exact rational
`2 ^ (-52)`.  A Rust `panic!` is modelled as `Option.none` / `Except.error`.
-/

namespace Rust3D

/-- `std::f64::EPSILON` (= 2⁻⁵²) as an exact rational. -/
def EPS : ℚ := 1 / 2 ^ 52

/-- `Vec3d([f64; 3])` from `src/math/vec_3d.rs`, embedded over `ℚ`. -/
abbrev Vec3d : Type := ℚ × ℚ × ℚ

namespace Vec3d

/-- `Vec3d::new` -/
def new (x y z : ℚ) : Vec3d := (x, y, z)

/-- component accessor `x()` -/
def x (v : Vec3d) : ℚ := v.1

/-- component accessor `y()` -/
def y (v : Vec3d) : ℚ := v.2.1

/-- component accessor `z()` -/
def z (v : Vec3d) : ℚ := v.2.2

/-- `Vec3d::sqr_abs` -/
def sqr_abs (v : Vec3d) : ℚ := x v * x v + y v * y v + z v * z v

/-- `Vec3d::dot` -/
def dot (v w : Vec3d) : ℚ := x v * x w + y v * y w + z v * z w

/-- `Vec3d::cross` -/
def cross (v w : Vec3d) : Vec3d :=
  new (y v * z w - y w * z v) (z v * x w - z w * x v) (x v * y w - x w * y v)

/-- `impl Add for Vec3d` -/
def add (v w : Vec3d) : Vec3d := new (x v + x w) (y v + y w) (z v + z w)

/-- `impl Sub for Vec3d` -/
def sub (v w : Vec3d) : Vec3d := new (x v - x w) (y v - y w) (z v - z w)

/-- `impl Mul<f64> for Vec3d` (componentwise scale) -/
def smul (v : Vec3d) (k : ℚ) : Vec3d := new (x v * k) (y v * k) (z v * k)

/-- `impl Neg for Vec3d` -/
def neg (v : Vec3d) : Vec3d := new (-x v) (-y v) (-z v)

/-- `impl Div<f64> for Vec3d`: the guard is `rhs.abs() > EPSILON`; the
`panic!("Trying to div by 0")` on the other branch is modelled as `none`. -/
def divOpt (v : Vec3d) (k : ℚ) : Option Vec3d :=
  if EPS < |k| then some (new (x v / k) (y v / k) (z v / k)) else none

end Vec3d

/-- `Vec4d([f64; 4])` from `src/math/vec_4d.rs`, embedded over `ℚ`. -/
abbrev Vec4d : Type := ℚ × ℚ × ℚ × ℚ

namespace Vec4d

/-- `Vec4d::new` -/
def new (x y z w : ℚ) : Vec4d := (x, y, z, w)

/-- component accessor `x()` -/
def x (v : Vec4d) : ℚ := v.1

/-- component accessor `y()` -/
def y (v : Vec4d) : ℚ := v.2.1

/-- component accessor `z()` -/
def z (v : Vec4d) : ℚ := v.2.2.1

/-- component accessor `w()` -/
def w (v : Vec4d) : ℚ := v.2.2.2

/-- `impl Div<f64> for Vec4d`: the guard is `rhs.abs() > EPSILON`; the
`panic!("Trying to div by 0")` on the other branch is modelled as `none`. -/
def divOpt (v : Vec4d) (k : ℚ) : Option Vec4d :=
  if EPS < |k| then some (new (x v / k) (y v / k) (z v / k) (w v / k)) else none

end Vec4d

namespace Vec3d

/-- `Vec3d::from_vec4d` (drops the `w` component) -/
def from_vec4d (v : Vec4d) : Vec3d := new (Vec4d.x v) (Vec4d.y v) (Vec4d.z v)

/-- `Vec3d::make_point_4d` (homogeneous point with `w = 1`) -/
def make_point_4d (v : Vec3d) : Vec4d := Vec4d.new (x v) (y v) (z v) 1

end Vec3d

/-- `macroquad::prelude::Color` (four float channels), embedded over `ℚ`. -/
structure Color where
  r : ℚ
  g : ℚ
  b : ℚ
  a : ℚ
deriving DecidableEq

/-- `Triangle` from `src/triangle.rs`: a color plus three homogeneous points.
The source also caches a derived `normal` (cross product of two edges,
`normalized()` with an `f64` square root); that cached field is an irrational
derived quantity not representable over `ℚ` and is not consulted by any of the
operations verified here (the camera's use of it is an explicit parameter of
`project`), so it is omitted from the state. -/
structure Triangle where
  color : Color
  p0 : Vec4d
  p1 : Vec4d
  p2 : Vec4d
deriving DecidableEq

namespace Triangle

/-- `Triangle::new` (modulo the cached normal, see above) -/
def new (color : Color) (p1 p2 p3 : Vec4d) : Triangle := ⟨color, p1, p2, p3⟩

/-- `points()[i]` indexing -/
def points (t : Triangle) : Fin 3 → Vec4d
  | 0 => t.p0
  | 1 => t.p1
  | 2 => t.p2

end Triangle

/-- `Plane { normal, point }` from `src/math/plane.rs`.  (`Plane::new`
normalizes its argument; `clip`/`distance`/`intersection` work with the stored
fields directly, so the struct is embedded as the raw pair of fields.) -/
structure Plane where
  normal : Vec3d
  point : Vec3d
deriving DecidableEq

namespace Plane

/-- `Plane::distance` -/
def distance (pl : Plane) (v : Vec3d) : ℚ :=
  Vec3d.dot v pl.normal - Vec3d.dot pl.point pl.normal

/-- `Plane::intersection`.  The division is total over `ℚ` (junk value on a
zero denominator, where the source would produce a NaN/Inf); inside `clip` the
denominator `d(start) - d(end)` is always positive. -/
def intersection (pl : Plane) (s e : Vec3d) : Vec3d × ℚ :=
  let s_dot_n := Vec3d.dot s pl.normal
  let k := (s_dot_n - Vec3d.dot pl.point pl.normal) / (s_dot_n - Vec3d.dot e pl.normal)
  (Vec3d.add s (Vec3d.smul (Vec3d.sub e s) k), k)

/-- The case analysis of `Plane::clip` on the already-partitioned
`inside_points` / `outside_points` lists.  (The source indexes
`outside_points` unconditionally; the list lengths always sum to 3, so the
match arms below cover exactly the reachable shapes, with `[]` for the
unreachable ones.) -/
def clipCases (pl : Plane) (tri : Triangle) :
    List Vec3d → List Vec3d → List Triangle
  | inside, outside =>
  match inside, outside with
  | [v], [w1, w2] =>
    [Triangle.new tri.color (Vec3d.make_point_4d v)
      (Vec3d.make_point_4d (pl.intersection v w1).1)
      (Vec3d.make_point_4d (pl.intersection v w2).1)]
  | [v1, v2], [w1] =>
    [Triangle.new tri.color (Vec3d.make_point_4d v1)
      (Vec3d.make_point_4d (pl.intersection v1 w1).1)
      (Vec3d.make_point_4d v2),
     Triangle.new tri.color (Vec3d.make_point_4d (pl.intersection v1 w1).1)
      (Vec3d.make_point_4d (pl.intersection v2 w1).1)
      (Vec3d.make_point_4d v2)]
  | [_, _, _], _ => [tri]
  | _, _ => []

/-- The `inside_points` list of `Plane::clip`: the vertices (in index order)
whose signed distance is `>= 0.0`. -/
def insideList (pl : Plane) (tri : Triangle) : List Vec3d :=
  (if 0 ≤ pl.distance (Vec3d.from_vec4d tri.p0) then [Vec3d.from_vec4d tri.p0] else []) ++
  (if 0 ≤ pl.distance (Vec3d.from_vec4d tri.p1) then [Vec3d.from_vec4d tri.p1] else []) ++
  (if 0 ≤ pl.distance (Vec3d.from_vec4d tri.p2) then [Vec3d.from_vec4d tri.p2] else [])

/-- The `outside_points` list of `Plane::clip`: the vertices (in index order)
whose signed distance is negative. -/
def outsideList (pl : Plane) (tri : Triangle) : List Vec3d :=
  (if 0 ≤ pl.distance (Vec3d.from_vec4d tri.p0) then [] else [Vec3d.from_vec4d tri.p0]) ++
  (if 0 ≤ pl.distance (Vec3d.from_vec4d tri.p1) then [] else [Vec3d.from_vec4d tri.p1]) ++
  (if 0 ≤ pl.distance (Vec3d.from_vec4d tri.p2) then [] else [Vec3d.from_vec4d tri.p2])

/-- `Plane::clip`: partitions the three vertices into `inside_points`
(signed distance `≥ 0`) and `outside_points` in index order, then performs the
case analysis on `inside_points.len()` from the source (`clipCases`). -/
def clip (pl : Plane) (tri : Triangle) : List Triangle :=
  clipCases pl tri (insideList pl tri) (outsideList pl tri)

end Plane

namespace Triangle

/-- `Vec3d::from_vec4d(&tri.points()[0])`, the 3-D part of the first vertex. -/
def v0 (t : Triangle) : Vec3d := Vec3d.from_vec4d t.p0

/-- `Vec3d::from_vec4d(&tri.points()[1])`, the 3-D part of the second vertex. -/
def v1 (t : Triangle) : Vec3d := Vec3d.from_vec4d t.p1

/-- `Vec3d::from_vec4d(&tri.points()[2])`, the 3-D part of the third vertex. -/
def v2 (t : Triangle) : Vec3d := Vec3d.from_vec4d t.p2

end Triangle

/-- The number of vertices of `tri` whose signed distance from `pl` is
non-negative (the `inside_points.len()` of `Plane::clip`). -/
def insideCount (pl : Plane) (tri : Triangle) : ℕ :=
  (if 0 ≤ pl.distance tri.v0 then 1 else 0) +
  (if 0 ≤ pl.distance tri.v1 then 1 else 0) +
  (if 0 ≤ pl.distance tri.v2 then 1 else 0)

namespace Plane

/-- clip, all three vertices strictly outside: empty output. -/
lemma clip_nnn (pl : Plane) (tri : Triangle) (h0 : ¬ 0 ≤ pl.distance tri.v0)
    (h1 : ¬ 0 ≤ pl.distance tri.v1) (h2 : ¬ 0 ≤ pl.distance tri.v2) :
    pl.clip tri = [] := by
  simp only [Triangle.v0, Triangle.v1, Triangle.v2] at h0 h1 h2
  simp [clip, insideList, outsideList, clipCases, Triangle.v0, Triangle.v1, Triangle.v2,
    h0, h1, h2]

/-- clip, all three vertices inside: the triangle passes through unchanged. -/
lemma clip_ppp (pl : Plane) (tri : Triangle) (h0 : 0 ≤ pl.distance tri.v0)
    (h1 : 0 ≤ pl.distance tri.v1) (h2 : 0 ≤ pl.distance tri.v2) :
    pl.clip tri = [tri] := by
  simp only [Triangle.v0, Triangle.v1, Triangle.v2] at h0 h1 h2
  simp [clip, insideList, outsideList, clipCases, Triangle.v0, Triangle.v1, Triangle.v2,
    h0, h1, h2]

/-- clip, only vertex 0 inside. -/
lemma clip_pnn (pl : Plane) (tri : Triangle) (h0 : 0 ≤ pl.distance tri.v0)
    (h1 : ¬ 0 ≤ pl.distance tri.v1) (h2 : ¬ 0 ≤ pl.distance tri.v2) :
    pl.clip tri =
      [Triangle.new tri.color (Vec3d.make_point_4d tri.v0)
        (Vec3d.make_point_4d (pl.intersection tri.v0 tri.v1).1)
        (Vec3d.make_point_4d (pl.intersection tri.v0 tri.v2).1)] := by
  simp only [Triangle.v0, Triangle.v1, Triangle.v2] at h0 h1 h2
  simp [clip, insideList, outsideList, clipCases, Triangle.v0, Triangle.v1, Triangle.v2,
    h0, h1, h2]

/-- clip, only vertex 1 inside. -/
lemma clip_npn (pl : Plane) (tri : Triangle) (h0 : ¬ 0 ≤ pl.distance tri.v0)
    (h1 : 0 ≤ pl.distance tri.v1) (h2 : ¬ 0 ≤ pl.distance tri.v2) :
    pl.clip tri =
      [Triangle.new tri.color (Vec3d.make_point_4d tri.v1)
        (Vec3d.make_point_4d (pl.intersection tri.v1 tri.v0).1)
        (Vec3d.make_point_4d (pl.intersection tri.v1 tri.v2).1)] := by
  simp only [Triangle.v0, Triangle.v1, Triangle.v2] at h0 h1 h2
  simp [clip, insideList, outsideList, clipCases, Triangle.v0, Triangle.v1, Triangle.v2,
    h0, h1, h2]

/-- clip, only vertex 2 inside. -/
lemma clip_nnp (pl : Plane) (tri : Triangle) (h0 : ¬ 0 ≤ pl.distance tri.v0)
    (h1 : ¬ 0 ≤ pl.distance tri.v1) (h2 : 0 ≤ pl.distance tri.v2) :
    pl.clip tri =
      [Triangle.new tri.color (Vec3d.make_point_4d tri.v2)
        (Vec3d.make_point_4d (pl.intersection tri.v2 tri.v0).1)
        (Vec3d.make_point_4d (pl.intersection tri.v2 tri.v1).1)] := by
  simp only [Triangle.v0, Triangle.v1, Triangle.v2] at h0 h1 h2
  simp [clip, insideList, outsideList, clipCases, Triangle.v0, Triangle.v1, Triangle.v2,
    h0, h1, h2]

/-- clip, vertices 0 and 1 inside, vertex 2 outside. -/
lemma clip_ppn (pl : Plane) (tri : Triangle) (h0 : 0 ≤ pl.distance tri.v0)
    (h1 : 0 ≤ pl.distance tri.v1) (h2 : ¬ 0 ≤ pl.distance tri.v2) :
    pl.clip tri =
      [Triangle.new tri.color (Vec3d.make_point_4d tri.v0)
        (Vec3d.make_point_4d (pl.intersection tri.v0 tri.v2).1)
        (Vec3d.make_point_4d tri.v1),
       Triangle.new tri.color (Vec3d.make_point_4d (pl.intersection tri.v0 tri.v2).1)
        (Vec3d.make_point_4d (pl.intersection tri.v1 tri.v2).1)
        (Vec3d.make_point_4d tri.v1)] := by
  simp only [Triangle.v0, Triangle.v1, Triangle.v2] at h0 h1 h2
  simp [clip, insideList, outsideList, clipCases, Triangle.v0, Triangle.v1, Triangle.v2,
    h0, h1, h2]

/-- clip, vertices 0 and 2 inside, vertex 1 outside. -/
lemma clip_pnp (pl : Plane) (tri : Triangle) (h0 : 0 ≤ pl.distance tri.v0)
    (h1 : ¬ 0 ≤ pl.distance tri.v1) (h2 : 0 ≤ pl.distance tri.v2) :
    pl.clip tri =
      [Triangle.new tri.color (Vec3d.make_point_4d tri.v0)
        (Vec3d.make_point_4d (pl.intersection tri.v0 tri.v1).1)
        (Vec3d.make_point_4d tri.v2),
       Triangle.new tri.color (Vec3d.make_point_4d (pl.intersection tri.v0 tri.v1).1)
        (Vec3d.make_point_4d (pl.intersection tri.v2 tri.v1).1)
        (Vec3d.make_point_4d tri.v2)] := by
  simp only [Triangle.v0, Triangle.v1, Triangle.v2] at h0 h1 h2
  simp [clip, insideList, outsideList, clipCases, Triangle.v0, Triangle.v1, Triangle.v2,
    h0, h1, h2]

/-- clip, vertices 1 and 2 inside, vertex 0 outside. -/
lemma clip_npp (pl : Plane) (tri : Triangle) (h0 : ¬ 0 ≤ pl.distance tri.v0)
    (h1 : 0 ≤ pl.distance tri.v1) (h2 : 0 ≤ pl.distance tri.v2) :
    pl.clip tri =
      [Triangle.new tri.color (Vec3d.make_point_4d tri.v1)
        (Vec3d.make_point_4d (pl.intersection tri.v1 tri.v0).1)
        (Vec3d.make_point_4d tri.v2),
       Triangle.new tri.color (Vec3d.make_point_4d (pl.intersection tri.v1 tri.v0).1)
        (Vec3d.make_point_4d (pl.intersection tri.v2 tri.v0).1)
        (Vec3d.make_point_4d tri.v2)] := by
  simp only [Triangle.v0, Triangle.v1, Triangle.v2] at h0 h1 h2
  simp [clip, insideList, outsideList, clipCases, Triangle.v0, Triangle.v1, Triangle.v2,
    h0, h1, h2]

end Plane

/-- **C1.** `Plane::clip` performs a strict case analysis on the number `n` of
the triangle's vertices with non-negative signed distance from the plane:
`n = 0` yields `[]`; `n = 3` yields `[tri]` unchanged; `n = 1` yields exactly
one triangle `(inside, intersect1, intersect2)` with the two edge
intersections from the inside vertex to each outside vertex (in index order);
`n = 2` yields exactly the two triangles `(inside0, intersect0, inside1)` and
`(intersect0, intersect1, inside1)` with the intersections from each inside
vertex to the single outside vertex.  The `n = 1` / `n = 2` cases are spelled
out for each of the six sign patterns. -/
theorem C1_clip_case_analysis (pl : Plane) (tri : Triangle) :
    (insideCount pl tri = 0 → pl.clip tri = []) ∧
    (insideCount pl tri = 3 → pl.clip tri = [tri]) ∧
    (0 ≤ pl.distance tri.v0 → pl.distance tri.v1 < 0 → pl.distance tri.v2 < 0 →
      pl.clip tri =
        [Triangle.new tri.color (Vec3d.make_point_4d tri.v0)
          (Vec3d.make_point_4d (pl.intersection tri.v0 tri.v1).1)
          (Vec3d.make_point_4d (pl.intersection tri.v0 tri.v2).1)]) ∧
    (pl.distance tri.v0 < 0 → 0 ≤ pl.distance tri.v1 → pl.distance tri.v2 < 0 →
      pl.clip tri =
        [Triangle.new tri.color (Vec3d.make_point_4d tri.v1)
          (Vec3d.make_point_4d (pl.intersection tri.v1 tri.v0).1)
          (Vec3d.make_point_4d (pl.intersection tri.v1 tri.v2).1)]) ∧
    (pl.distance tri.v0 < 0 → pl.distance tri.v1 < 0 → 0 ≤ pl.distance tri.v2 →
      pl.clip tri =
        [Triangle.new tri.color (Vec3d.make_point_4d tri.v2)
          (Vec3d.make_point_4d (pl.intersection tri.v2 tri.v0).1)
          (Vec3d.make_point_4d (pl.intersection tri.v2 tri.v1).1)]) ∧
    (0 ≤ pl.distance tri.v0 → 0 ≤ pl.distance tri.v1 → pl.distance tri.v2 < 0 →
      pl.clip tri =
        [Triangle.new tri.color (Vec3d.make_point_4d tri.v0)
          (Vec3d.make_point_4d (pl.intersection tri.v0 tri.v2).1)
          (Vec3d.make_point_4d tri.v1),
         Triangle.new tri.color (Vec3d.make_point_4d (pl.intersection tri.v0 tri.v2).1)
          (Vec3d.make_point_4d (pl.intersection tri.v1 tri.v2).1)
          (Vec3d.make_point_4d tri.v1)]) ∧
    (0 ≤ pl.distance tri.v0 → pl.distance tri.v1 < 0 → 0 ≤ pl.distance tri.v2 →
      pl.clip tri =
        [Triangle.new tri.color (Vec3d.make_point_4d tri.v0)
          (Vec3d.make_point_4d (pl.intersection tri.v0 tri.v1).1)
          (Vec3d.make_point_4d tri.v2),
         Triangle.new tri.color (Vec3d.make_point_4d (pl.intersection tri.v0 tri.v1).1)
          (Vec3d.make_point_4d (pl.intersection tri.v2 tri.v1).1)
          (Vec3d.make_point_4d tri.v2)]) ∧
    (pl.distance tri.v0 < 0 → 0 ≤ pl.distance tri.v1 → 0 ≤ pl.distance tri.v2 →
      pl.clip tri =
        [Triangle.new tri.color (Vec3d.make_point_4d tri.v1)
          (Vec3d.make_point_4d (pl.intersection tri.v1 tri.v0).1)
          (Vec3d.make_point_4d tri.v2),
         Triangle.new tri.color (Vec3d.make_point_4d (pl.intersection tri.v1 tri.v0).1)
          (Vec3d.make_point_4d (pl.intersection tri.v2 tri.v0).1)
          (Vec3d.make_point_4d tri.v2)]) := by
  by_cases h0 : 0 ≤ pl.distance tri.v0 <;>
  by_cases h1 : 0 ≤ pl.distance tri.v1 <;>
  by_cases h2 : 0 ≤ pl.distance tri.v2 <;>
  refine ⟨fun hc => ?_, fun hc => ?_, fun ha hb hcc => ?_, fun ha hb hcc => ?_,
    fun ha hb hcc => ?_, fun ha hb hcc => ?_, fun ha hb hcc => ?_, fun ha hb hcc => ?_⟩ <;>
  first
    | exact Plane.clip_nnn pl tri h0 h1 h2
    | exact Plane.clip_ppp pl tri h0 h1 h2
    | exact Plane.clip_pnn pl tri h0 h1 h2
    | exact Plane.clip_npn pl tri h0 h1 h2
    | exact Plane.clip_nnp pl tri h0 h1 h2
    | exact Plane.clip_ppn pl tri h0 h1 h2
    | exact Plane.clip_pnp pl tri h0 h1 h2
    | exact Plane.clip_npp pl tri h0 h1 h2
    | simp [insideCount, h0, h1, h2] at hc
    | linarith

/-- Witness for C1: a concrete 1-inside configuration, evaluated. -/
theorem C1_clip_case_analysis_witness :
    Plane.clip ⟨(1, 0, 0), (0, 0, 0)⟩
      ⟨⟨1, 1, 1, 1⟩, (1, 0, 0, 1), (-1, 0, 0, 1), (-1, 2, 0, 1)⟩ =
      [Triangle.new ⟨1, 1, 1, 1⟩ (1, 0, 0, 1) (0, 0, 0, 1) (0, 1, 0, 1)] := by
  have h := (C1_clip_case_analysis ⟨(1, 0, 0), (0, 0, 0)⟩
      ⟨⟨1, 1, 1, 1⟩, (1, 0, 0, 1), (-1, 0, 0, 1), (-1, 2, 0, 1)⟩).2.2.1
      (by norm_num [Plane.clip, Plane.clipCases, Plane.insideList, Plane.outsideList, Plane.distance,
    Plane.intersection, insideCount, Triangle.new, Triangle.v0, Triangle.v1, Triangle.v2,
    Vec3d.from_vec4d, Vec3d.make_point_4d, Vec3d.new, Vec3d.add, Vec3d.sub, Vec3d.smul,
    Vec3d.dot, Vec3d.x, Vec3d.y, Vec3d.z, Vec4d.new, Vec4d.x, Vec4d.y, Vec4d.z, Vec4d.w])
      (by norm_num [Plane.clip, Plane.clipCases, Plane.insideList, Plane.outsideList, Plane.distance,
    Plane.intersection, insideCount, Triangle.new, Triangle.v0, Triangle.v1, Triangle.v2,
    Vec3d.from_vec4d, Vec3d.make_point_4d, Vec3d.new, Vec3d.add, Vec3d.sub, Vec3d.smul,
    Vec3d.dot, Vec3d.x, Vec3d.y, Vec3d.z, Vec4d.new, Vec4d.x, Vec4d.y, Vec4d.z, Vec4d.w])
      (by norm_num [Plane.clip, Plane.clipCases, Plane.insideList, Plane.outsideList, Plane.distance,
    Plane.intersection, insideCount, Triangle.new, Triangle.v0, Triangle.v1, Triangle.v2,
    Vec3d.from_vec4d, Vec3d.make_point_4d, Vec3d.new, Vec3d.add, Vec3d.sub, Vec3d.smul,
    Vec3d.dot, Vec3d.x, Vec3d.y, Vec3d.z, Vec4d.new, Vec4d.x, Vec4d.y, Vec4d.z, Vec4d.w])
  rw [h]
  norm_num [Plane.clip, Plane.clipCases, Plane.insideList, Plane.outsideList, Plane.distance,
    Plane.intersection, insideCount, Triangle.new, Triangle.v0, Triangle.v1, Triangle.v2,
    Vec3d.from_vec4d, Vec3d.make_point_4d, Vec3d.new, Vec3d.add, Vec3d.sub, Vec3d.smul,
    Vec3d.dot, Vec3d.x, Vec3d.y, Vec3d.z, Vec4d.new, Vec4d.x, Vec4d.y, Vec4d.z, Vec4d.w]

/-- **C10.** In the 1-inside and 2-inside cases, every vertex of every output
triangle of `Plane::clip` is rebuilt through `make_point_4d` and so has
homogeneous `w` component exactly `1`, regardless of the `w` components of the
input vertices; only the 3-inside case passes the input triangle (and its `w`
values) through unchanged. -/
theorem C10_clip_output_w_is_one (pl : Plane) (tri : Triangle) :
    (insideCount pl tri = 1 ∨ insideCount pl tri = 2 →
      ∀ t' ∈ pl.clip tri,
        Vec4d.w t'.p0 = 1 ∧ Vec4d.w t'.p1 = 1 ∧ Vec4d.w t'.p2 = 1) ∧
    (insideCount pl tri = 3 → pl.clip tri = [tri]) := by
  by_cases h0 : 0 ≤ pl.distance tri.v0 <;>
  by_cases h1 : 0 ≤ pl.distance tri.v1 <;>
  by_cases h2 : 0 ≤ pl.distance tri.v2 <;>
  refine ⟨fun hc => ?_, fun hc => ?_⟩ <;>
  first
    | exact Plane.clip_ppp pl tri h0 h1 h2
    | ((first
        | rw [Plane.clip_pnn pl tri h0 h1 h2]
        | rw [Plane.clip_npn pl tri h0 h1 h2]
        | rw [Plane.clip_nnp pl tri h0 h1 h2]
        | rw [Plane.clip_ppn pl tri h0 h1 h2]
        | rw [Plane.clip_pnp pl tri h0 h1 h2]
        | rw [Plane.clip_npp pl tri h0 h1 h2]);
       simp [Triangle.new, Vec3d.make_point_4d, Vec4d.new, Vec4d.w]; done)
    | simp [insideCount, h0, h1, h2] at hc

/-- Witness for C10: a concrete 1-inside clip (input `w` components 5, 7, 9)
whose single output triangle has all `w` components equal to 1. -/
theorem C10_clip_output_w_is_one_witness :
    (insideCount ⟨(1, 0, 0), (0, 0, 0)⟩
        ⟨⟨0, 0, 0, 1⟩, (1, 0, 0, 5), (-1, 0, 0, 7), (-1, 2, 0, 9)⟩ = 1 ∨
     insideCount ⟨(1, 0, 0), (0, 0, 0)⟩
        ⟨⟨0, 0, 0, 1⟩, (1, 0, 0, 5), (-1, 0, 0, 7), (-1, 2, 0, 9)⟩ = 2) ∧
    (Vec4d.w (Triangle.p0 (Triangle.new ⟨0, 0, 0, 1⟩ (1, 0, 0, 1) (0, 0, 0, 1) (0, 1, 0, 1))) = 1 ∧
     Vec4d.w (Triangle.p1 (Triangle.new ⟨0, 0, 0, 1⟩ (1, 0, 0, 1) (0, 0, 0, 1) (0, 1, 0, 1))) = 1 ∧
     Vec4d.w (Triangle.p2 (Triangle.new ⟨0, 0, 0, 1⟩ (1, 0, 0, 1) (0, 0, 0, 1) (0, 1, 0, 1))) = 1) :=
  ⟨Or.inl (by norm_num [Plane.clip, Plane.clipCases, Plane.insideList, Plane.outsideList, Plane.distance,
    Plane.intersection, insideCount, Triangle.new, Triangle.v0, Triangle.v1, Triangle.v2,
    Vec3d.from_vec4d, Vec3d.make_point_4d, Vec3d.new, Vec3d.add, Vec3d.sub, Vec3d.smul,
    Vec3d.dot, Vec3d.x, Vec3d.y, Vec3d.z, Vec4d.new, Vec4d.x, Vec4d.y, Vec4d.z, Vec4d.w]),
   (C10_clip_output_w_is_one ⟨(1, 0, 0), (0, 0, 0)⟩
      ⟨⟨0, 0, 0, 1⟩, (1, 0, 0, 5), (-1, 0, 0, 7), (-1, 2, 0, 9)⟩).1
     (Or.inl (by norm_num [Plane.clip, Plane.clipCases, Plane.insideList, Plane.outsideList, Plane.distance,
    Plane.intersection, insideCount, Triangle.new, Triangle.v0, Triangle.v1, Triangle.v2,
    Vec3d.from_vec4d, Vec3d.make_point_4d, Vec3d.new, Vec3d.add, Vec3d.sub, Vec3d.smul,
    Vec3d.dot, Vec3d.x, Vec3d.y, Vec3d.z, Vec4d.new, Vec4d.x, Vec4d.y, Vec4d.z, Vec4d.w]))
     (Triangle.new ⟨0, 0, 0, 1⟩ (1, 0, 0, 1) (0, 0, 0, 1) (0, 1, 0, 1))
     (by norm_num [Plane.clip, Plane.clipCases, Plane.insideList, Plane.outsideList, Plane.distance,
    Plane.intersection, insideCount, Triangle.new, Triangle.v0, Triangle.v1, Triangle.v2,
    Vec3d.from_vec4d, Vec3d.make_point_4d, Vec3d.new, Vec3d.add, Vec3d.sub, Vec3d.smul,
    Vec3d.dot, Vec3d.x, Vec3d.y, Vec3d.z, Vec4d.new, Vec4d.x, Vec4d.y, Vec4d.z, Vec4d.w])⟩

/-- **C8.** For `Vec3d` and `Vec4d`, the scalar division operator fails
fatally (modelled: returns `none`) iff `|s| ≤ EPSILON`, and otherwise returns
the componentwise quotient. -/
theorem C8_scalar_div_panics_iff_near_zero (v3 : Vec3d) (v4 : Vec4d) (s : ℚ) :
    (Vec3d.divOpt v3 s = none ↔ |s| ≤ EPS) ∧
    (Vec4d.divOpt v4 s = none ↔ |s| ≤ EPS) ∧
    (EPS < |s| → Vec3d.divOpt v3 s =
      some (Vec3d.new (Vec3d.x v3 / s) (Vec3d.y v3 / s) (Vec3d.z v3 / s))) ∧
    (EPS < |s| → Vec4d.divOpt v4 s =
      some (Vec4d.new (Vec4d.x v4 / s) (Vec4d.y v4 / s) (Vec4d.z v4 / s) (Vec4d.w v4 / s))) := by
  refine ⟨?_, ?_, fun h => ?_, fun h => ?_⟩
  · unfold Vec3d.divOpt
    split_ifs with h
    · simp [h.not_le]
    · simp [not_lt.mp h]
  · unfold Vec4d.divOpt
    split_ifs with h
    · simp [h.not_le]
    · simp [not_lt.mp h]
  · simp [Vec3d.divOpt, h]
  · simp [Vec4d.divOpt, h]

/-- Witness for C8: dividing by `2` succeeds with the componentwise quotient. -/
theorem C8_scalar_div_panics_iff_near_zero_witness :
    EPS < |(2 : ℚ)| ∧
    Vec3d.divOpt (1, 2, 3) 2 = some (Vec3d.new (1 / 2) 1 (3 / 2)) ∧
    Vec4d.divOpt (1, 2, 3, 4) 2 = some (Vec4d.new (1 / 2) 1 (3 / 2) 2) := by
  have habs : |(2 : ℚ)| = 2 := abs_of_pos (by norm_num)
  have heps : EPS < |(2 : ℚ)| := by rw [habs]; norm_num [EPS]
  refine ⟨heps, ?_, ?_⟩
  · have h := (C8_scalar_div_panics_iff_near_zero (1, 2, 3) (1, 2, 3, 4) 2).2.2.1 heps
    rw [h]
    norm_num [Vec3d.new, Vec3d.x, Vec3d.y, Vec3d.z]
  · have h := (C8_scalar_div_panics_iff_near_zero (1, 2, 3) (1, 2, 3, 4) 2).2.2.2 heps
    rw [h]
    norm_num [Vec4d.new, Vec4d.x, Vec4d.y, Vec4d.z, Vec4d.w]

/-- `Matrix4x4([[f64; 4]; 4])` from `src/math/matrix4x4.rs`, embedded over
`ℚ` as a function of row and column indices. -/
abbrev Matrix4x4 : Type := Fin 4 → Fin 4 → ℚ

namespace Matrix4x4

/-- `Matrix4x4::zero` -/
def zero : Matrix4x4 := fun _ _ => 0

/-- a single `res.0[i][j] = v` assignment -/
def set (m : Matrix4x4) (i j : Fin 4) (v : ℚ) : Matrix4x4 :=
  fun a b => if a = i ∧ b = j then v else m a b

/-- `Matrix4x4::identity` (zero, then ones on the diagonal) -/
def identity : Matrix4x4 :=
  (((zero.set 0 0 1).set 1 1 1).set 2 2 1).set 3 3 1

/-- `Matrix4x4::translation` -/
def translation (v : Vec3d) : Matrix4x4 :=
  ((identity.set 0 3 (Vec3d.x v)).set 1 3 (Vec3d.y v)).set 2 3 (Vec3d.z v)

/-- `Matrix4x4::scale` -/
def scale (v : Vec3d) : Matrix4x4 :=
  ((identity.set 0 0 (Vec3d.x v)).set 1 1 (Vec3d.y v)).set 2 2 (Vec3d.z v)

/-- column accessor `x()` (rows 0–2 of column 0) -/
def x (m : Matrix4x4) : Vec3d := Vec3d.new (m 0 0) (m 1 0) (m 2 0)

/-- column accessor `y()` (rows 0–2 of column 1) -/
def y (m : Matrix4x4) : Vec3d := Vec3d.new (m 0 1) (m 1 1) (m 2 1)

/-- column accessor `z()` (rows 0–2 of column 2) -/
def z (m : Matrix4x4) : Vec3d := Vec3d.new (m 0 2) (m 1 2) (m 2 2)

/-- column accessor `w()` (rows 0–2 of column 3) -/
def w (m : Matrix4x4) : Vec3d := Vec3d.new (m 0 3) (m 1 3) (m 2 3)

/-- `Matrix4x4::projection(fov, aspect, znear, zfar)`.  The `f64` trigonometry
is abstracted: `tanF` stands for `f64::tan` and `piQ` for `std::f64::consts::PI`;
the entries are otherwise literal, starting from `identity` exactly as the
source does. -/
def projection (tanF : ℚ → ℚ) (piQ fov aspect znear zfar : ℚ) : Matrix4x4 :=
  ((((identity.set 0 0 (1 / (tanF (piQ * fov * (1 / 2) / 180) * aspect))).set
    1 1 (1 / tanF (piQ * fov * (1 / 2) / 180))).set
    2 2 (zfar / (zfar - znear))).set
    2 3 (-zfar * znear / (zfar - znear))).set
    3 2 1

/-- `impl Mul<Matrix4x4> for Matrix4x4` (the `k`-loop unrolled) -/
def mul (a b : Matrix4x4) : Matrix4x4 := fun i j =>
  a i 0 * b 0 j + a i 1 * b 1 j + a i 2 * b 2 j + a i 3 * b 3 j

/-- `impl Mul<Vec4d> for Matrix4x4` -/
def mulVec4 (m : Matrix4x4) (v : Vec4d) : Vec4d :=
  Vec4d.new
    (m 0 0 * Vec4d.x v + m 0 1 * Vec4d.y v + m 0 2 * Vec4d.z v + m 0 3 * Vec4d.w v)
    (m 1 0 * Vec4d.x v + m 1 1 * Vec4d.y v + m 1 2 * Vec4d.z v + m 1 3 * Vec4d.w v)
    (m 2 0 * Vec4d.x v + m 2 1 * Vec4d.y v + m 2 2 * Vec4d.z v + m 2 3 * Vec4d.w v)
    (m 3 0 * Vec4d.x v + m 3 1 * Vec4d.y v + m 3 2 * Vec4d.z v + m 3 3 * Vec4d.w v)

/-- `Matrix4x4::view`: rows are the basis columns divided by their own squared
magnitude, with the negated eye projections in the last column (the divisions
are plain `f64` divisions in the source, so they are total here as well). -/
def view (t : Matrix4x4) : Matrix4x4 :=
  ((((((((((((zero.set 0 0 (Vec3d.x (x t) / Vec3d.sqr_abs (x t))).set
    0 1 (Vec3d.y (x t) / Vec3d.sqr_abs (x t))).set
    0 2 (Vec3d.z (x t) / Vec3d.sqr_abs (x t))).set
    0 3 (-Vec3d.dot (w t) (x t) / Vec3d.sqr_abs (x t))).set
    1 0 (Vec3d.x (y t) / Vec3d.sqr_abs (y t))).set
    1 1 (Vec3d.y (y t) / Vec3d.sqr_abs (y t))).set
    1 2 (Vec3d.z (y t) / Vec3d.sqr_abs (y t))).set
    1 3 (-Vec3d.dot (w t) (y t) / Vec3d.sqr_abs (y t))).set
    2 0 (Vec3d.x (z t) / Vec3d.sqr_abs (z t))).set
    2 1 (Vec3d.y (z t) / Vec3d.sqr_abs (z t))).set
    2 2 (Vec3d.z (z t) / Vec3d.sqr_abs (z t))).set
    2 3 (-Vec3d.dot (w t) (z t) / Vec3d.sqr_abs (z t))).set
    3 3 1

/-- Entrywise extensionality for 4×4 matrices at literal indices. -/
lemma ext16 (A B : Matrix4x4)
    (h00 : A 0 0 = B 0 0) (h01 : A 0 1 = B 0 1) (h02 : A 0 2 = B 0 2) (h03 : A 0 3 = B 0 3) (h10 : A 1 0 = B 1 0) (h11 : A 1 1 = B 1 1) (h12 : A 1 2 = B 1 2) (h13 : A 1 3 = B 1 3) (h20 : A 2 0 = B 2 0) (h21 : A 2 1 = B 2 1) (h22 : A 2 2 = B 2 2) (h23 : A 2 3 = B 2 3) (h30 : A 3 0 = B 3 0) (h31 : A 3 1 = B 3 1) (h32 : A 3 2 = B 3 2) (h33 : A 3 3 = B 3 3) : A = B := by
  funext i j
  fin_cases i <;> fin_cases j <;>
  first
    | exact h00
    | exact h01
    | exact h02
    | exact h03
    | exact h10
    | exact h11
    | exact h12
    | exact h13
    | exact h20
    | exact h21
    | exact h22
    | exact h23
    | exact h30
    | exact h31
    | exact h32
    | exact h33

/-- entry `(0,0)` of `Matrix4x4::view` -/
lemma view_apply_00 (t : Matrix4x4) : view t 0 0 = Vec3d.x (x t) / Vec3d.sqr_abs (x t) := by
  simp [view, set]

/-- entry `(0,1)` of `Matrix4x4::view` -/
lemma view_apply_01 (t : Matrix4x4) : view t 0 1 = Vec3d.y (x t) / Vec3d.sqr_abs (x t) := by
  simp [view, set]

/-- entry `(0,2)` of `Matrix4x4::view` -/
lemma view_apply_02 (t : Matrix4x4) : view t 0 2 = Vec3d.z (x t) / Vec3d.sqr_abs (x t) := by
  simp [view, set]

/-- entry `(0,3)` of `Matrix4x4::view` -/
lemma view_apply_03 (t : Matrix4x4) : view t 0 3 = -Vec3d.dot (w t) (x t) / Vec3d.sqr_abs (x t) := by
  simp [view, set]

/-- entry `(1,0)` of `Matrix4x4::view` -/
lemma view_apply_10 (t : Matrix4x4) : view t 1 0 = Vec3d.x (y t) / Vec3d.sqr_abs (y t) := by
  simp [view, set]

/-- entry `(1,1)` of `Matrix4x4::view` -/
lemma view_apply_11 (t : Matrix4x4) : view t 1 1 = Vec3d.y (y t) / Vec3d.sqr_abs (y t) := by
  simp [view, set]

/-- entry `(1,2)` of `Matrix4x4::view` -/
lemma view_apply_12 (t : Matrix4x4) : view t 1 2 = Vec3d.z (y t) / Vec3d.sqr_abs (y t) := by
  simp [view, set]

/-- entry `(1,3)` of `Matrix4x4::view` -/
lemma view_apply_13 (t : Matrix4x4) : view t 1 3 = -Vec3d.dot (w t) (y t) / Vec3d.sqr_abs (y t) := by
  simp [view, set]

/-- entry `(2,0)` of `Matrix4x4::view` -/
lemma view_apply_20 (t : Matrix4x4) : view t 2 0 = Vec3d.x (z t) / Vec3d.sqr_abs (z t) := by
  simp [view, set]

/-- entry `(2,1)` of `Matrix4x4::view` -/
lemma view_apply_21 (t : Matrix4x4) : view t 2 1 = Vec3d.y (z t) / Vec3d.sqr_abs (z t) := by
  simp [view, set]

/-- entry `(2,2)` of `Matrix4x4::view` -/
lemma view_apply_22 (t : Matrix4x4) : view t 2 2 = Vec3d.z (z t) / Vec3d.sqr_abs (z t) := by
  simp [view, set]

/-- entry `(2,3)` of `Matrix4x4::view` -/
lemma view_apply_23 (t : Matrix4x4) : view t 2 3 = -Vec3d.dot (w t) (z t) / Vec3d.sqr_abs (z t) := by
  simp [view, set]

/-- entry `(3,0)` of `Matrix4x4::view` -/
lemma view_apply_30 (t : Matrix4x4) : view t 3 0 = 0 := by
  simp [view, set, zero]

/-- entry `(3,1)` of `Matrix4x4::view` -/
lemma view_apply_31 (t : Matrix4x4) : view t 3 1 = 0 := by
  simp [view, set, zero]

/-- entry `(3,2)` of `Matrix4x4::view` -/
lemma view_apply_32 (t : Matrix4x4) : view t 3 2 = 0 := by
  simp [view, set, zero]

/-- entry `(3,3)` of `Matrix4x4::view` -/
lemma view_apply_33 (t : Matrix4x4) : view t 3 3 = 1 := by
  simp [view, set, zero]

end Matrix4x4

/-- **C2 counterexample.**  The claim asserts that every entry of the
projection matrix other than `m[0][0]`, `m[1][1]`, `m[2][2]`, `m[2][3]`,
`m[3][2]` — in particular `m[3][3]` — is zero.  But `Matrix4x4::projection`
starts from `Matrix4x4::identity()` and never overwrites `m[3][3]`, so
`m[3][3] = 1`: at the concrete input below the entry is non-zero. -/
theorem C2_projection_m33_counterexample :
    Matrix4x4.projection (fun q => q) 3 90 2 1 2 3 3 ≠ 0 := by
  have h : Matrix4x4.projection (fun q => q) 3 90 2 1 2 3 3 = 1 := by
    simp [Matrix4x4.projection, Matrix4x4.set, Matrix4x4.identity, Matrix4x4.zero]
  rw [h]
  norm_num

/-- **C2 (amended).** `Matrix4x4::projection(fov, aspect, zNear, zFar)` (with
`tanF` abstracting `f64::tan` and `piQ` abstracting `PI`) has
`m[0][0] = 1/(tan(fov/2)·aspect)`, `m[1][1] = 1/tan(fov/2)` (fov converted
from degrees), `m[2][2] = zFar/(zFar−zNear)`, `m[2][3] = −zFar·zNear/(zFar−zNear)`,
`m[3][2] = 1`, and — because the matrix is built starting from the identity —
`m[3][3] = 1`; every remaining entry is zero. -/
theorem C2_projection_entries (tanF : ℚ → ℚ) (piQ fov aspect znear zfar : ℚ) :
    Matrix4x4.projection tanF piQ fov aspect znear zfar 0 0 =
      1 / (tanF (piQ * fov * (1 / 2) / 180) * aspect) ∧
    Matrix4x4.projection tanF piQ fov aspect znear zfar 1 1 =
      1 / tanF (piQ * fov * (1 / 2) / 180) ∧
    Matrix4x4.projection tanF piQ fov aspect znear zfar 2 2 = zfar / (zfar - znear) ∧
    Matrix4x4.projection tanF piQ fov aspect znear zfar 2 3 =
      -zfar * znear / (zfar - znear) ∧
    Matrix4x4.projection tanF piQ fov aspect znear zfar 3 2 = 1 ∧
    Matrix4x4.projection tanF piQ fov aspect znear zfar 3 3 = 1 ∧
    Matrix4x4.projection tanF piQ fov aspect znear zfar 0 1 = 0 ∧
    Matrix4x4.projection tanF piQ fov aspect znear zfar 0 2 = 0 ∧
    Matrix4x4.projection tanF piQ fov aspect znear zfar 0 3 = 0 ∧
    Matrix4x4.projection tanF piQ fov aspect znear zfar 1 0 = 0 ∧
    Matrix4x4.projection tanF piQ fov aspect znear zfar 1 2 = 0 ∧
    Matrix4x4.projection tanF piQ fov aspect znear zfar 1 3 = 0 ∧
    Matrix4x4.projection tanF piQ fov aspect znear zfar 2 0 = 0 ∧
    Matrix4x4.projection tanF piQ fov aspect znear zfar 2 1 = 0 ∧
    Matrix4x4.projection tanF piQ fov aspect znear zfar 3 0 = 0 ∧
    Matrix4x4.projection tanF piQ fov aspect znear zfar 3 1 = 0 := by
  simp [Matrix4x4.projection, Matrix4x4.set, Matrix4x4.identity, Matrix4x4.zero]

/-- **C6.** For an affine transform matrix whose first three columns are
mutually orthogonal with non-zero (squared) magnitudes and whose bottom row is
`(0, 0, 0, 1)`, `Matrix4x4::view(M)` is an exact left inverse:
`view(M) · M = identity`. -/
theorem C6_view_is_inverse_of_orthogonal (M : Matrix4x4)
    (hxy : Vec3d.dot (Matrix4x4.x M) (Matrix4x4.y M) = 0)
    (hxz : Vec3d.dot (Matrix4x4.x M) (Matrix4x4.z M) = 0)
    (hyz : Vec3d.dot (Matrix4x4.y M) (Matrix4x4.z M) = 0)
    (hx : Vec3d.sqr_abs (Matrix4x4.x M) ≠ 0)
    (hy : Vec3d.sqr_abs (Matrix4x4.y M) ≠ 0)
    (hz : Vec3d.sqr_abs (Matrix4x4.z M) ≠ 0)
    (hb0 : M 3 0 = 0) (hb1 : M 3 1 = 0) (hb2 : M 3 2 = 0) (hb3 : M 3 3 = 1) :
    Matrix4x4.mul (Matrix4x4.view M) M = Matrix4x4.identity := by
  simp only [Matrix4x4.x, Matrix4x4.y, Matrix4x4.z, Vec3d.dot, Vec3d.sqr_abs,
    Vec3d.new, Vec3d.x, Vec3d.y, Vec3d.z] at hxy hxz hyz hx hy hz
  refine Matrix4x4.ext16 _ _ ?_ ?_ ?_ ?_ ?_ ?_ ?_ ?_ ?_ ?_ ?_ ?_ ?_ ?_ ?_ ?_ <;>
    simp [Matrix4x4.mul, Matrix4x4.view_apply_00, Matrix4x4.view_apply_01,
      Matrix4x4.view_apply_02, Matrix4x4.view_apply_03, Matrix4x4.view_apply_10,
      Matrix4x4.view_apply_11, Matrix4x4.view_apply_12, Matrix4x4.view_apply_13,
      Matrix4x4.view_apply_20, Matrix4x4.view_apply_21, Matrix4x4.view_apply_22,
      Matrix4x4.view_apply_23, Matrix4x4.view_apply_30, Matrix4x4.view_apply_31,
      Matrix4x4.view_apply_32, Matrix4x4.view_apply_33,
      Matrix4x4.identity, Matrix4x4.set, Matrix4x4.zero,
      Matrix4x4.x, Matrix4x4.y, Matrix4x4.z, Matrix4x4.w,
      Vec3d.dot, Vec3d.sqr_abs, Vec3d.new, Vec3d.x, Vec3d.y, Vec3d.z,
      hb0, hb1, hb2, hb3] <;>
    (try field_simp) <;>
    first
      | ring1
      | linear_combination hxy
      | linear_combination hxz
      | linear_combination hyz

/-- Witness for C6: the identity transform satisfies the orthogonality
hypotheses, and `view(identity) · identity = identity`. -/
theorem C6_view_is_inverse_of_orthogonal_witness :
    Matrix4x4.mul (Matrix4x4.view Matrix4x4.identity) Matrix4x4.identity =
      Matrix4x4.identity :=
  C6_view_is_inverse_of_orthogonal Matrix4x4.identity
    (by simp [Matrix4x4.x, Matrix4x4.y, Matrix4x4.identity, Matrix4x4.set,
      Matrix4x4.zero, Vec3d.dot, Vec3d.new, Vec3d.x, Vec3d.y, Vec3d.z])
    (by simp [Matrix4x4.x, Matrix4x4.z, Matrix4x4.identity, Matrix4x4.set,
      Matrix4x4.zero, Vec3d.dot, Vec3d.new, Vec3d.x, Vec3d.y, Vec3d.z])
    (by simp [Matrix4x4.y, Matrix4x4.z, Matrix4x4.identity, Matrix4x4.set,
      Matrix4x4.zero, Vec3d.dot, Vec3d.new, Vec3d.x, Vec3d.y, Vec3d.z])
    (by simp [Matrix4x4.x, Matrix4x4.identity, Matrix4x4.set, Matrix4x4.zero,
      Vec3d.sqr_abs, Vec3d.new, Vec3d.x, Vec3d.y, Vec3d.z])
    (by simp [Matrix4x4.y, Matrix4x4.identity, Matrix4x4.set, Matrix4x4.zero,
      Vec3d.sqr_abs, Vec3d.new, Vec3d.x, Vec3d.y, Vec3d.z])
    (by simp [Matrix4x4.z, Matrix4x4.identity, Matrix4x4.set, Matrix4x4.zero,
      Vec3d.sqr_abs, Vec3d.new, Vec3d.x, Vec3d.y, Vec3d.z])
    (by simp [Matrix4x4.identity, Matrix4x4.set, Matrix4x4.zero])
    (by simp [Matrix4x4.identity, Matrix4x4.set, Matrix4x4.zero])
    (by simp [Matrix4x4.identity, Matrix4x4.set, Matrix4x4.zero])
    (by simp [Matrix4x4.identity, Matrix4x4.set, Matrix4x4.zero])

/-! `Vec3d::normalized` takes an `f64` square root, so it is embedded over `ℝ`
(`Vec3R`); everything else about the vector is as in the `ℚ` embedding. -/

/-- `std::f64::EPSILON` over `ℝ` (for the `ℝ`-embedded operations). -/
noncomputable def EPSR : ℝ := 1 / 2 ^ 52

/-- `Vec3d` embedded over `ℝ`, for the square-root-using operations. -/
abbrev Vec3R : Type := ℝ × ℝ × ℝ

namespace Vec3R

/-- `Vec3d::sqr_abs` over `ℝ` -/
def sqr_abs (v : Vec3R) : ℝ := v.1 * v.1 + v.2.1 * v.2.1 + v.2.2 * v.2.2

/-- `Vec3d::abs` (`sqr_abs().sqrt()`) -/
noncomputable def abs (v : Vec3R) : ℝ := Real.sqrt (sqr_abs v)

/-- `Vec3d::normalized`: `if self.abs() > EPSILON { self / self.abs() } else { 0 }`.
In the taken branch the divisor `self.abs()` satisfies the division operator's
own `|rhs| > EPSILON` guard (it is positive and `> EPSILON`), so the division
is the plain componentwise quotient. -/
noncomputable def normalized (v : Vec3R) : Vec3R :=
  if EPSR < abs v then (v.1 / abs v, v.2.1 / abs v, v.2.2 / abs v) else (0, 0, 0)

end Vec3R

/-- **C7.** `Vec3d::normalized` returns a unit-magnitude vector when the
magnitude exceeds machine epsilon, and the zero vector otherwise (rather than
failing). -/
theorem C7_normalized_unit_or_zero (v : Vec3R) :
    (EPSR < Vec3R.abs v → Vec3R.abs (Vec3R.normalized v) = 1) ∧
    (¬ EPSR < Vec3R.abs v → Vec3R.normalized v = (0, 0, 0)) := by
  constructor
  · intro h
    have heps : (0 : ℝ) < EPSR := by norm_num [EPSR]
    have ha : 0 < Vec3R.abs v := heps.trans h
    have hnn : 0 ≤ Vec3R.sqr_abs v :=
      add_nonneg (add_nonneg (mul_self_nonneg _) (mul_self_nonneg _)) (mul_self_nonneg _)
    have hsq : Vec3R.abs v * Vec3R.abs v = Vec3R.sqr_abs v := Real.mul_self_sqrt hnn
    unfold Vec3R.sqr_abs at hsq
    have hne : Vec3R.abs v ≠ 0 := ne_of_gt ha
    unfold Vec3R.normalized
    rw [if_pos h]
    set a := Vec3R.abs v with hA
    show Real.sqrt
      (v.1 / a * (v.1 / a) + v.2.1 / a * (v.2.1 / a) + v.2.2 / a * (v.2.2 / a)) = 1
    have hval : v.1 / a * (v.1 / a) + v.2.1 / a * (v.2.1 / a) + v.2.2 / a * (v.2.2 / a) = 1 := by
      field_simp
      first
        | linear_combination hsq
        | linear_combination -hsq
    rw [hval, Real.sqrt_one]
  · intro h
    unfold Vec3R.normalized
    rw [if_neg h]

/-- Witness for C7: `(3, 4, 0)` has magnitude `5 > EPSILON` and normalizes to
a unit vector. -/
theorem C7_normalized_unit_or_zero_witness :
    EPSR < Vec3R.abs (3, 4, 0) ∧ Vec3R.abs (Vec3R.normalized (3, 4, 0)) = 1 := by
  have habs : Vec3R.abs ((3 : ℝ), (4 : ℝ), (0 : ℝ)) = 5 := by
    unfold Vec3R.abs Vec3R.sqr_abs
    rw [show ((3 : ℝ) * 3 + 4 * 4 + 0 * 0) = 5 ^ 2 by norm_num]
    exact Real.sqrt_sq (by norm_num)
  have h : EPSR < Vec3R.abs (3, 4, 0) := by rw [habs]; norm_num [EPSR]
  exact ⟨h, (C7_normalized_unit_or_zero (3, 4, 0)).1 h⟩

/-! ### `MyCamera::sorted` (depth sort of the triangle buffer) -/

/-- The per-triangle sort key of `MyCamera::sorted`: the three vertex `z`
values are sorted ascending (`v_z.sort_by(partial_cmp)`) and then summed. -/
def zKey (t : Triangle) : ℚ :=
  (List.insertionSort (· ≤ ·) [Vec4d.z t.p0, Vec4d.z t.p1, Vec4d.z t.p2]).sum

/-- The raw `z`-sum of a triangle's three vertices. -/
def zSum (t : Triangle) : ℚ := Vec4d.z t.p0 + Vec4d.z t.p1 + Vec4d.z t.p2

/-- Sorting the three values does not change their sum. -/
lemma zKey_eq_zSum (t : Triangle) : zKey t = zSum t := by
  have h := (List.perm_insertionSort (α := ℚ) (· ≤ ·)
      [Vec4d.z t.p0, Vec4d.z t.p1, Vec4d.z t.p2]).sum_eq
  unfold zKey zSum
  rw [h]
  simp
  ring

/-- `MyCamera::sorted` on the triangle buffer.  Rust's `sort_by` is a stable
sort, and a stable sort's output is uniquely determined by the (total
preorder) comparator `z1.total_cmp(&z2)` and the input order, so insertion
sort is an exact model of it. -/
def sortedTriangles (l : List Triangle) : List Triangle :=
  List.insertionSort (fun a b => zKey a ≤ zKey b) l

/-- filtering by an exact key commutes with `orderedInsert` for a key-based
comparator (the inserted element lands before every element of equal key,
and only elements of strictly smaller key precede it). -/
lemma filter_orderedInsert_zKey (k : ℚ) (a : Triangle) (L : List Triangle) :
    (List.orderedInsert (fun x y => zKey x ≤ zKey y) a L).filter
        (fun t => decide (zKey t = k)) =
      if zKey a = k then a :: L.filter (fun t => decide (zKey t = k))
      else L.filter (fun t => decide (zKey t = k)) := by
  induction L with
  | nil =>
    by_cases h : zKey a = k <;> simp [List.orderedInsert, h]
  | cons b L ih =>
    simp only [List.orderedInsert]
    by_cases hab : zKey a ≤ zKey b
    · rw [if_pos hab]
      by_cases h : zKey a = k <;> by_cases hbk : zKey b = k <;>
        simp [List.filter_cons, h, hbk]
    · rw [if_neg hab]
      have hba : zKey b < zKey a := lt_of_not_le hab
      by_cases h : zKey a = k
      · have hbk : ¬ zKey b = k := fun hk => absurd (h ▸ hk ▸ hba) (lt_irrefl _)
        simp [List.filter_cons, hbk, ih, h]
      · by_cases hbk : zKey b = k <;> simp [List.filter_cons, hbk, ih, h]

/-- Stability of the model sort: the subsequence of triangles with any fixed
key value is unchanged. -/
lemma filter_sortedTriangles_zKey (k : ℚ) (l : List Triangle) :
    (sortedTriangles l).filter (fun t => decide (zKey t = k)) =
      l.filter (fun t => decide (zKey t = k)) := by
  induction l with
  | nil => rfl
  | cons a l ih =>
    show (List.orderedInsert _ a (sortedTriangles l)).filter _ = _
    rw [filter_orderedInsert_zKey]
    by_cases h : zKey a = k
    · rw [if_pos h, ih, List.filter_cons]
      simp [h]
    · rw [if_neg h, ih, List.filter_cons]
      simp [h]

/-- **C3.** After `sorted()`, the buffer is a permutation of its previous
contents, ordered by non-decreasing `z`-sum key (sorting the three `z` values
before summing does not change the sum), and triangles with equal keys retain
their relative order (stability). -/
theorem C3_sorted_is_stable_zsum_sort (l : List Triangle) :
    (sortedTriangles l).Perm l ∧
    List.Sorted (fun a b => zSum a ≤ zSum b) (sortedTriangles l) ∧
    (∀ k : ℚ, (sortedTriangles l).filter (fun t => decide (zSum t = k)) =
      l.filter (fun t => decide (zSum t = k))) := by
  refine ⟨List.perm_insertionSort _ l, ?_, ?_⟩
  · have hs : List.Sorted (fun a b => zKey a ≤ zKey b) (sortedTriangles l) := by
      haveI : IsTotal Triangle (fun a b => zKey a ≤ zKey b) := ⟨fun a b => le_total _ _⟩
      haveI : IsTrans Triangle (fun a b => zKey a ≤ zKey b) :=
        ⟨fun _ _ _ hab hbc => le_trans hab hbc⟩
      exact List.sorted_insertionSort _ l
    have : (fun a b : Triangle => zKey a ≤ zKey b) = fun a b => zSum a ≤ zSum b := by
      funext a b
      rw [zKey_eq_zSum, zKey_eq_zSum]
    exact this ▸ hs
  · intro k
    have h := filter_sortedTriangles_zKey k l
    have : (fun t : Triangle => decide (zKey t = k)) =
        fun t => decide (zSum t = k) := by
      funext t
      rw [zKey_eq_zSum]
    exact this ▸ h

/-! ### `Object::attach` / `Object::check_if_attached` (src/object.rs)

Objects live in `Rc<RefCell<…>>` cells; attached children are stored as a map
from nametag to `rc::Weak` reference.  The embedding uses an explicit heap:
addresses are list indices, a destroyed object is `none` (so a dangling weak
reference upgrades to nothing), and an object's attachment map is an
insertion-ordered association list of `(key nametag, weak address)` entries.
`check_if_attached` recursies through live references with no visited set; it
is embedded with explicit fuel, and `h.length + 1` fuel is proven sufficient
(`reaches_check`): any reachability witness can be shortened to one whose
address path is duplicate-free, hence no longer than the heap. -/

/-- The attachment-relevant state of an `Object` (trait data accessed by
`attach`): its `ObjectNameTag` and its `attached_objects` map, as an
insertion-ordered association list `key nametag ↦ weak address`. -/
structure Obj where
  nametag : String
  attached : List (String × Nat)
deriving DecidableEq

/-- The heap of `Rc` cells: address ↦ object, `none` once destroyed. -/
abbrev Heap : Type := List (Option Obj)

/-- `rc::Weak::upgrade`: `none` for a dangling weak reference or an
out-of-range address. -/
def lookupObj (h : Heap) (a : Nat) : Option Obj := h.getD a none

/-- `Object::check_if_attached(tag)`: scans the attachment map; returns true
on a key match (regardless of the entry's liveness) and otherwise recurses
into each live child.  The source has no fuel (it relies on the attach-time
cycle check for termination); `reaches_check` below shows fuel `h.length + 1`
computes the same answer as unbounded recursion would. -/
def checkIfAttached (h : Heap) : Nat → Obj → String → Bool
  | 0, _, _ => false
  | Nat.succ n, o, tag =>
    o.attached.any fun e =>
      e.1 == tag ||
        match lookupObj h e.2 with
        | some c => checkIfAttached h n c tag
        | none => false

/-- `HashMap::insert` on the association list: overwrite the entry with the
same key if present, otherwise add one. -/
def insertAttached (l : List (String × Nat)) (t : String) (a : Nat) : List (String × Nat) :=
  if l.any (fun e => e.1 == t) then l.map (fun e => if e.1 == t then (t, a) else e)
  else l ++ [(t, a)]

/-- Writing back an updated object at an address. -/
def setObj (h : Heap) (a : Nat) (o : Obj) : Heap := h.set a (some o)

/-- `Object::attach(child)`, on objects at heap addresses `selfAddr`,
`childAddr` (both alive whenever the Rust code can call it: `attach` takes
`&mut self` and an `Rc`).  The two `panic!`s are modelled as `Except.error`
with the source's messages. -/
def attach (h : Heap) (selfAddr childAddr : Nat) : Except String Heap :=
  match lookupObj h selfAddr, lookupObj h childAddr with
  | some s, some c =>
    if s.nametag ≠ c.nametag then
      if checkIfAttached h (h.length + 1) c s.nametag = false then
        Except.ok (setObj h selfAddr ⟨s.nametag, insertAttached s.attached c.nametag childAddr⟩)
      else Except.error "Object::attach: You tried to create infinite recursive call chains"
    else Except.error "Object::attach: You cannot attach object to itself"
  | _, _ => Except.error "Object::attach: dangling argument"

/-- Whether an `attach` outcome is the fatal case. -/
def isError (r : Except String Heap) : Bool :=
  match r with
  | Except.error _ => true
  | Except.ok _ => false

/-- `tag` is reachable from `o` by walking the attachment subtree through
live weak references: either some entry of `o`'s map is keyed `tag`, or a
live child reaches it. -/
inductive ReachesTag (h : Heap) : Obj → String → Prop where
  | key : ∀ {o : Obj} {tag : String} (a : Nat),
      (tag, a) ∈ o.attached → ReachesTag h o tag
  | step : ∀ {o : Obj} {tag : String} (t : String) (a : Nat) (c : Obj),
      (t, a) ∈ o.attached → lookupObj h a = some c → ReachesTag h c tag →
      ReachesTag h o tag

/-- A reachability witness as the explicit list of child addresses stepped
through before the key match. -/
def PathReach (h : Heap) : Obj → String → List Nat → Prop
  | o, tag, [] => ∃ a, (tag, a) ∈ o.attached
  | o, tag, a :: p => ∃ t c, (t, a) ∈ o.attached ∧ lookupObj h a = some c ∧ PathReach h c tag p

lemma reachesTag_iff_path (h : Heap) (o : Obj) (tag : String) :
    ReachesTag h o tag ↔ ∃ p, PathReach h o tag p := by
  constructor
  · intro hr
    induction hr with
    | key a ha => exact ⟨[], a, ha⟩
    | step t a c hmem hlook _ ih =>
      obtain ⟨p, hp⟩ := ih
      exact ⟨a :: p, t, c, hmem, hlook, hp⟩
  · rintro ⟨p, hp⟩
    induction p generalizing o with
    | nil =>
      obtain ⟨a, ha⟩ := hp
      exact ReachesTag.key a ha
    | cons a p ih =>
      obtain ⟨t, c, hmem, hlook, hp'⟩ := hp
      exact ReachesTag.step t a c hmem hlook (ih c hp')

lemma pathReach_through (h : Heap) (tag : String) :
    ∀ (u : List Nat) (a : Nat) (v : List Nat) (o : Obj),
      PathReach h o tag (u ++ a :: v) →
      ∃ c, lookupObj h a = some c ∧ PathReach h c tag v := by
  intro u
  induction u with
  | nil =>
    intro a v o hp
    obtain ⟨t, c, _, hlook, hp'⟩ := hp
    exact ⟨c, hlook, hp'⟩
  | cons b u ih =>
    intro a v o hp
    obtain ⟨t, c, _, _, hp'⟩ := hp
    exact ih a v c hp'

lemma pathReach_shorten (h : Heap) (tag : String) :
    ∀ (p : List Nat) (o : Obj), PathReach h o tag p → ¬ p.Nodup →
      ∃ q : List Nat, q.length < p.length ∧ PathReach h o tag q := by
  intro p
  induction p with
  | nil => intro o _ hnd; exact absurd List.nodup_nil hnd
  | cons a p ih =>
    intro o hp hnd
    obtain ⟨t, c, hmem, hlook, hp'⟩ := hp
    by_cases hap : a ∈ p
    · obtain ⟨u, v, rfl⟩ := List.append_of_mem hap
      obtain ⟨c', hlook', hv⟩ := pathReach_through h tag u a v c hp'
      have hcc : c' = c := Option.some.inj (hlook'.symm.trans hlook)
      refine ⟨a :: v, ?_, t, c, hmem, hlook, hcc ▸ hv⟩
      simp only [List.length_cons, List.length_append]
      omega
    · have hnd' : ¬ p.Nodup := fun hd => hnd (List.nodup_cons.mpr ⟨hap, hd⟩)
      obtain ⟨q, hlen, hq⟩ := ih c hp' hnd'
      exact ⟨a :: q, by simpa using Nat.succ_lt_succ hlen, t, c, hmem, hlook, hq⟩

lemma pathReach_nodup (h : Heap) (tag : String) :
    ∀ (n : Nat) (p : List Nat), p.length ≤ n → ∀ o, PathReach h o tag p →
      ∃ q, q.Nodup ∧ PathReach h o tag q := by
  intro n
  induction n with
  | zero =>
    intro p hlen o hp
    rw [List.length_eq_zero.mp (Nat.le_zero.mp hlen)] at hp
    exact ⟨[], List.nodup_nil, hp⟩
  | succ n ih =>
    intro p hlen o hp
    by_cases hd : p.Nodup
    · exact ⟨p, hd, hp⟩
    · obtain ⟨q, hlt, hq⟩ := pathReach_shorten h tag p o hp hd
      exact ih q (by omega) o hq

lemma pathReach_live (h : Heap) (tag : String) :
    ∀ (p : List Nat) (o : Obj), PathReach h o tag p →
      ∀ a ∈ p, lookupObj h a ≠ none := by
  intro p
  induction p with
  | nil => intro o _ a ha; exact absurd ha (List.not_mem_nil a)
  | cons b p ih =>
    intro o hp a ha
    obtain ⟨t, c, _, hlook, hp'⟩ := hp
    rcases List.mem_cons.mp ha with rfl | ha'
    · rw [hlook]; exact Option.some_ne_none c
    · exact ih c hp' a ha'

lemma lookup_lt_length (h : Heap) (a : Nat) (hl : lookupObj h a ≠ none) :
    a < h.length := by
  by_contra hge
  exact hl (List.getD_eq_default h none (Nat.le_of_not_lt hge))

lemma nodup_path_length (h : Heap) (tag : String) (p : List Nat) (o : Obj)
    (hp : PathReach h o tag p) (hd : p.Nodup) : p.length ≤ h.length := by
  have hsub : p.toFinset ⊆ Finset.range h.length := by
    intro a ha
    rw [List.mem_toFinset] at ha
    exact Finset.mem_range.mpr (lookup_lt_length h a (pathReach_live h tag p o hp a ha))
  calc p.length = p.toFinset.card := (List.toFinset_card_of_nodup hd).symm
    _ ≤ (Finset.range h.length).card := Finset.card_le_card hsub
    _ = h.length := Finset.card_range _

lemma check_of_path (h : Heap) (tag : String) :
    ∀ (p : List Nat) (o : Obj) (n : Nat), PathReach h o tag p → p.length < n →
      checkIfAttached h n o tag = true := by
  intro p
  induction p with
  | nil =>
    intro o n hp hn
    obtain ⟨a, ha⟩ := hp
    obtain ⟨m, rfl⟩ := Nat.exists_eq_succ_of_ne_zero (Nat.pos_iff_ne_zero.mp hn)
    exact List.any_eq_true.mpr ⟨(tag, a), ha, by simp⟩
  | cons a p ih =>
    intro o n hp hn
    obtain ⟨t, c, hmem, hlook, hp'⟩ := hp
    obtain ⟨m, rfl⟩ := Nat.exists_eq_succ_of_ne_zero (by omega : n ≠ 0)
    refine List.any_eq_true.mpr ⟨(t, a), hmem, ?_⟩
    have hrec : checkIfAttached h m c tag = true := by
      refine ih c m hp' ?_
      simpa using Nat.lt_of_succ_lt_succ hn
    simp [hlook, hrec]

lemma check_sound (h : Heap) (tag : String) :
    ∀ (n : Nat) (o : Obj), checkIfAttached h n o tag = true → ReachesTag h o tag := by
  intro n
  induction n with
  | zero => intro o hck; simp [checkIfAttached] at hck
  | succ n ih =>
    intro o hck
    obtain ⟨e, hmem, hbody⟩ := List.any_eq_true.mp hck
    obtain ⟨e1, e2⟩ := e
    rcases Bool.or_eq_true_iff.mp hbody with hkey | hstep
    · have : e1 = tag := by simpa using hkey
      exact ReachesTag.key e2 (this ▸ hmem)
    · cases hl : lookupObj h e2 with
      | none => rw [hl] at hstep; simp at hstep
      | some c =>
        rw [hl] at hstep
        exact ReachesTag.step e1 e2 c hmem hl (ih c hstep)

/-- Fuel `h.length + 1` is enough: a reachability witness shortens to a
duplicate-free address path, which is no longer than the heap. -/
lemma reaches_check (h : Heap) (o : Obj) (tag : String)
    (hr : ReachesTag h o tag) : checkIfAttached h (h.length + 1) o tag = true := by
  obtain ⟨p, hp⟩ := (reachesTag_iff_path h o tag).mp hr
  obtain ⟨q, hqd, hq⟩ := pathReach_nodup h tag p.length p le_rfl o hp
  exact check_of_path h tag q o _ hq
    (Nat.lt_succ_of_le (nodup_path_length h tag q o hq hqd))

lemma insertAttached_any_key (l : List (String × Nat)) (t : String) (a : Nat) :
    (insertAttached l t a).any (fun e => e.1 == t) = true := by
  unfold insertAttached
  split_ifs with hl
  · obtain ⟨e, he, hk⟩ := List.any_eq_true.mp hl
    refine List.any_eq_true.mpr ⟨(t, a), List.mem_map.mpr ⟨e, he, ?_⟩, by simp⟩
    simp [hk]
  · exact List.any_eq_true.mpr ⟨(t, a), by simp, by simp⟩

lemma lookupObj_set_self (h : Heap) (a : Nat) (o : Obj) (ha : a < h.length) :
    lookupObj (setObj h a o) a = some o := by
  unfold lookupObj setObj
  rw [List.getD_eq_getElem?_getD, List.getElem?_set_self', List.getElem?_eq_getElem ha]
  rfl

lemma lookupObj_set_ne (h : Heap) (a b : Nat) (o : Obj) (hne : b ≠ a) :
    lookupObj (setObj h a o) b = lookupObj h b := by
  unfold lookupObj setObj
  rw [List.getD_eq_getElem?_getD, List.getElem?_set_ne (fun he => hne he.symm),
    ← List.getD_eq_getElem?_getD]

/-- **C4.** `Object::attach(child)` fails fatally iff the child's nametag
equals the object's own nametag, or the object's nametag is reachable through
the child's attachment subtree; on success it stores the weak reference keyed
by the child's nametag (overwriting any entry with that key).  In particular
a successful `A.attach(B)` makes `B.attach(A)` fail fatally, and
`A.attach(A)` fails fatally. -/
theorem C4_attach_rejects_self_and_cycles (h : Heap) (sa ca : Nat) (s c : Obj)
    (hs : lookupObj h sa = some s) (hc : lookupObj h ca = some c) :
    (isError (attach h sa ca) = true ↔
      s.nametag = c.nametag ∨ ReachesTag h c s.nametag) ∧
    (s.nametag ≠ c.nametag → ¬ ReachesTag h c s.nametag →
      attach h sa ca = Except.ok
        (setObj h sa ⟨s.nametag, insertAttached s.attached c.nametag ca⟩)) ∧
    (∀ h', attach h sa ca = Except.ok h' → isError (attach h' ca sa) = true) ∧
    isError (attach h sa sa) = true := by
  have hsa_lt : sa < h.length :=
    lookup_lt_length h sa (by rw [hs]; exact Option.some_ne_none s)
  refine ⟨?_, ?_, ?_, ?_⟩
  · simp only [attach, hs, hc]
    by_cases htag : s.nametag ≠ c.nametag
    · rw [if_pos htag]
      by_cases hck : checkIfAttached h (h.length + 1) c s.nametag = false
      · rw [if_pos hck]
        refine iff_of_false (by simp [isError]) ?_
        rintro (heq | hr)
        · exact htag heq
        · rw [reaches_check h c s.nametag hr] at hck
          cases hck
      · rw [if_neg hck]
        refine iff_of_true rfl (Or.inr (check_sound h s.nametag (h.length + 1) c ?_))
        revert hck
        cases checkIfAttached h (h.length + 1) c s.nametag <;> simp
    · rw [if_neg htag]
      exact iff_of_true rfl (Or.inl (not_ne_iff.mp htag))
  · intro htag hnr
    have hck : checkIfAttached h (h.length + 1) c s.nametag = false := by
      cases hcase : checkIfAttached h (h.length + 1) c s.nametag
      · rfl
      · exact absurd (check_sound h s.nametag _ c hcase) hnr
    simp only [attach, hs, hc]
    rw [if_pos htag, if_pos hck]
  · intro h' hok
    have htag : s.nametag ≠ c.nametag := by
      intro heq
      simp only [attach, hs, hc] at hok
      rw [if_neg (not_ne_iff.mpr heq)] at hok
      cases hok
    have hck : checkIfAttached h (h.length + 1) c s.nametag = false := by
      cases hcase : checkIfAttached h (h.length + 1) c s.nametag
      · rfl
      · simp only [attach, hs, hc] at hok
        rw [if_pos htag, if_neg (by rw [hcase]; simp)] at hok
        cases hok
    have hval : h' = setObj h sa ⟨s.nametag, insertAttached s.attached c.nametag ca⟩ := by
      simp only [attach, hs, hc] at hok
      rw [if_pos htag, if_pos hck] at hok
      exact (Except.ok.inj hok).symm
    have hcasa : ca ≠ sa := by
      intro hca
      rw [hca, hs] at hc
      exact htag (congrArg Obj.nametag (Option.some.inj hc))
    have hlc : lookupObj h' ca = some c := by
      rw [hval, lookupObj_set_ne h sa ca _ hcasa]
      exact hc
    have hls : lookupObj h' sa =
        some ⟨s.nametag, insertAttached s.attached c.nametag ca⟩ :=
      hval ▸ lookupObj_set_self h sa _ hsa_lt
    have hcheck : checkIfAttached h' (h'.length + 1)
        ⟨s.nametag, insertAttached s.attached c.nametag ca⟩ c.nametag = true := by
      obtain ⟨e, he, hk⟩ := List.any_eq_true.mp
        (insertAttached_any_key s.attached c.nametag ca)
      exact List.any_eq_true.mpr ⟨e, he, by simp [hk]⟩
    simp only [attach, hlc, hls]
    rw [if_pos (show c.nametag ≠ s.nametag from Ne.symm htag),
      if_neg (by rw [hcheck]; simp)]
    rfl
  · simp only [attach, hs]
    rw [if_neg (not_ne_iff.mpr rfl)]
    rfl

/-- Witness for C4: on the two-object heap `[A, B]`, attaching `A` to itself
fails fatally, and after a successful `A.attach(B)` the reverse `B.attach(A)`
fails fatally. -/
theorem C4_attach_rejects_self_and_cycles_witness :
    isError (attach [some ⟨"A", []⟩, some ⟨"B", []⟩] 0 0) = true ∧
    isError (attach (setObj [some ⟨"A", []⟩, some ⟨"B", []⟩] 0
      ⟨"A", insertAttached [] "B" 1⟩) 1 0) = true := by
  have H := C4_attach_rejects_self_and_cycles
    [some ⟨"A", []⟩, some ⟨"B", []⟩] 0 1 ⟨"A", []⟩ ⟨"B", []⟩ rfl rfl
  have hnr : ¬ ReachesTag [some ⟨"A", []⟩, some ⟨"B", []⟩] ⟨"B", []⟩ "A" := by
    intro hr
    cases hr with
    | key a ha => exact absurd ha (List.not_mem_nil _)
    | step t a c hmem _ _ => exact absurd hmem (List.not_mem_nil _)
  have hok := H.2.1 (by decide) hnr
  exact ⟨H.2.2.2, H.2.2.1 _ hok⟩

/-! ### `MyCamera::project` (src/camera.rs)

The lighting term (`m_tri.normal().dot(normalize(p0 - position))`) and the
ambient color computation (`Color::from_rgba` with `f32`/`u8` casts) involve
an `f64` square root and float→integer casts; they are abstracted as explicit
function parameters `lightDot` and `shade` of `project`, and the buffer-
discipline claim is proved for **all** such functions.  Everything else
(model/view matrices, frustum clipping, projection, perspective divide with
its panicking division) is embedded literally over `ℚ`. -/

/-- The `Mesh` state consumed by `project`: its `ObjectStruct` transform and
position (for `model()`), triangle list, and visibility flag. -/
structure MeshData where
  transform : Matrix4x4
  position : Vec3d
  triangles : List Triangle
  visible : Bool
deriving DecidableEq

/-- The `MyCamera` state used by `project`/`sorted`/`clear`: its
`ObjectStruct` transform and position (for `inv_model()`), the per-frame
triangle buffer, the frustum planes, and the combined screen×projection
matrix `sp`. -/
structure MyCamera where
  transform : Matrix4x4
  position : Vec3d
  triangles : List Triangle
  clip_planes : List Plane
  sp : Matrix4x4
deriving DecidableEq

/-- `Object::model()`: `translation(position) * transform`. -/
def model (transform : Matrix4x4) (position : Vec3d) : Matrix4x4 :=
  Matrix4x4.mul (Matrix4x4.translation position) transform

/-- `impl Mul<&Matrix4x4> for &Triangle`: transforms the three points (the
color is preserved; the source also recomputes the cached normal, omitted as
described on `Triangle`). -/
def triMul (t : Triangle) (m : Matrix4x4) : Triangle :=
  Triangle.new t.color (Matrix4x4.mulVec4 m t.p0) (Matrix4x4.mulVec4 m t.p1)
    (Matrix4x4.mulVec4 m t.p2)

/-- One pass of the clipping loop of `project`: pop candidates from the end,
clip each against `pl`, and collect the outputs into the temp buffer. -/
def clipAgainst (pl : Plane) (ts : List Triangle) : List Triangle :=
  ts.reverse.foldl (fun acc t => acc ++ Plane.clip pl t) []

/-- The full frustum-clipping loop: successively clip the candidate list
against every plane, starting from the single view-space triangle. -/
def clipAll (planes : List Plane) (t : Triangle) : List Triangle :=
  planes.foldl (fun cur pl => clipAgainst pl cur) [t]

/-- The per-clipped-triangle tail of `project`: multiply by the combined
screen×projection matrix `sp`, then divide each point by its own `w`
component with the panicking `Vec4d` division (modelled as `Option`), and
rebuild the triangle with the ambient color. -/
def projectClipped (sp : Matrix4x4) (ambient : Color → Color) (t' : Triangle) :
    Option Triangle := do
  let cp := triMul t' sp
  let q0 ← Vec4d.divOpt cp.p0 (Vec4d.w cp.p0)
  let q1 ← Vec4d.divOpt cp.p1 (Vec4d.w cp.p1)
  let q2 ← Vec4d.divOpt cp.p2 (Vec4d.w cp.p2)
  some (Triangle.new (ambient t'.color) q0 q1 q2)

/-- The body of `project`'s per-source-triangle loop: world transform,
lighting dot (abstracted), view transform, frustum clipping, and the
screen-space projection of every surviving triangle. -/
def projectTri (campos : Vec3d) (v m sp : Matrix4x4) (planes : List Plane)
    (lightDot : Triangle → Vec3d → ℚ) (shade : Color → ℚ → Color)
    (t : Triangle) : Option (List Triangle) := do
  let m_tri := triMul t m
  let dotv := lightDot m_tri campos
  let vm_tri := triMul m_tri v
  (clipAll planes vm_tri).mapM (projectClipped sp (fun col => shade col dotv))

/-- `MyCamera::project(mesh)`: returns `vec![]` immediately for an invisible
mesh; otherwise appends every projected triangle to the camera's buffer and
returns `self.triangles.clone()` — the whole accumulated buffer. -/
def project (lightDot : Triangle → Vec3d → ℚ) (shade : Color → ℚ → Color)
    (cam : MyCamera) (mesh : MeshData) : Option (MyCamera × List Triangle) :=
  if ¬ mesh.visible then some (cam, [])
  else do
    let parts ← mesh.triangles.mapM
      (projectTri cam.position (Matrix4x4.view (model cam.transform cam.position))
        (model mesh.transform mesh.position) cam.sp cam.clip_planes lightDot shade)
    let cam' : MyCamera := { cam with triangles := cam.triangles ++ parts.flatten }
    some (cam', cam'.triangles)

/-- `MyCamera::clear()` -/
def clear (cam : MyCamera) : MyCamera := { cam with triangles := [] }

/-- **C9.** For an invisible mesh, `project` returns the empty vector and
leaves the camera (including its per-frame triangle buffer) untouched; for a
visible mesh (when no perspective divide panics), the returned vector is a
clone of the **entire** accumulated buffer — the previous buffer contents are
a prefix of it — not only the triangles produced from the given mesh. -/
theorem C9_project_returns_whole_buffer (lightDot : Triangle → Vec3d → ℚ)
    (shade : Color → ℚ → Color) (cam : MyCamera) (mesh : MeshData) :
    (mesh.visible = false → project lightDot shade cam mesh = some (cam, [])) ∧
    (mesh.visible = true → ∀ cam' res,
      project lightDot shade cam mesh = some (cam', res) →
      res = cam'.triangles ∧ cam.triangles <+: cam'.triangles) := by
  constructor
  · intro h
    simp [project, h]
  · intro hv cam' res hp
    rw [project, if_neg (by simp [hv])] at hp
    cases hparts : mesh.triangles.mapM
        (projectTri cam.position (Matrix4x4.view (model cam.transform cam.position))
          (model mesh.transform mesh.position) cam.sp cam.clip_planes lightDot shade) with
    | none => rw [hparts] at hp; cases hp
    | some parts =>
      rw [hparts] at hp
      obtain ⟨hcam, hres⟩ := Prod.ext_iff.mp (Option.some.inj hp)
      dsimp only at hcam hres
      constructor
      · rw [← hcam, ← hres]
      · rw [← hcam]
        exact ⟨parts.flatten, rfl⟩

/-- Witness for C9: a camera whose buffer already holds one triangle and a
visible but empty mesh — `project` succeeds and returns the whole buffer. -/
theorem C9_project_returns_whole_buffer_witness :
    MeshData.visible ⟨Matrix4x4.identity, (0, 0, 0), [], true⟩ = true ∧
    ([(⟨⟨1, 1, 1, 1⟩, (0, 0, 0, 1), (1, 0, 0, 1), (0, 1, 0, 1)⟩ : Triangle)] =
      (MyCamera.mk Matrix4x4.identity (0, 0, 0)
        [⟨⟨1, 1, 1, 1⟩, (0, 0, 0, 1), (1, 0, 0, 1), (0, 1, 0, 1)⟩] []
        Matrix4x4.identity).triangles ∧
     (MyCamera.mk Matrix4x4.identity (0, 0, 0)
        [⟨⟨1, 1, 1, 1⟩, (0, 0, 0, 1), (1, 0, 0, 1), (0, 1, 0, 1)⟩] []
        Matrix4x4.identity).triangles <+:
      (MyCamera.mk Matrix4x4.identity (0, 0, 0)
        [⟨⟨1, 1, 1, 1⟩, (0, 0, 0, 1), (1, 0, 0, 1), (0, 1, 0, 1)⟩] []
        Matrix4x4.identity).triangles) :=
  ⟨rfl,
   (C9_project_returns_whole_buffer (fun _ _ => 0) (fun c _ => c)
      (MyCamera.mk Matrix4x4.identity (0, 0, 0)
        [⟨⟨1, 1, 1, 1⟩, (0, 0, 0, 1), (1, 0, 0, 1), (0, 1, 0, 1)⟩] []
        Matrix4x4.identity)
      ⟨Matrix4x4.identity, (0, 0, 0), [], true⟩).2 rfl
     (MyCamera.mk Matrix4x4.identity (0, 0, 0)
        [⟨⟨1, 1, 1, 1⟩, (0, 0, 0, 1), (1, 0, 0, 1), (0, 1, 0, 1)⟩] []
        Matrix4x4.identity)
     [⟨⟨1, 1, 1, 1⟩, (0, 0, 0, 1), (1, 0, 0, 1), (0, 1, 0, 1)⟩] rfl⟩

/-! ### Area conservation of `Plane::clip` (C5)

The filled triangle with vertices `a b c` is the set of convex combinations
`α•a + β•b + γ•c` (`triSet`); "the portion of the triangle inside the
half-space" is its intersection with `0 ≤ distance` (`Plane::distance` is
affine, `distance_combo3`).  Areas are compared through the exact rational
scalar `|areaVec(T') ⬝ N|` where `areaVec` is the doubled vector area
(cross product of two edges — the un-normalized quantity behind
`Triangle::calculate_normal`) and `N = areaVec(input)`: for a triangle
coplanar with the input this equals `2·area(T')·‖N‖`, so it is the area in
fixed exact units, with no square roots. -/

/-- The plane with the opposite orientation (same point, negated normal);
its inside half-space is the complement of `pl`'s (minus the boundary). -/
def flipPlane (pl : Plane) : Plane := ⟨Vec3d.neg pl.normal, pl.point⟩

lemma flipPlane_distance (pl : Plane) (v : Vec3d) :
    (flipPlane pl).distance v = -pl.distance v := by
  unfold flipPlane Plane.distance Vec3d.dot Vec3d.neg Vec3d.new Vec3d.x Vec3d.y Vec3d.z
  ring

/-- A two-point affine combination, in the source's own vector operations. -/
def combo2 (α β : ℚ) (a b : Vec3d) : Vec3d :=
  Vec3d.add (Vec3d.smul a α) (Vec3d.smul b β)

/-- A three-point affine combination, in the source's own vector operations. -/
def combo3 (α β γ : ℚ) (a b c : Vec3d) : Vec3d :=
  Vec3d.add (Vec3d.add (Vec3d.smul a α) (Vec3d.smul b β)) (Vec3d.smul c γ)

/-- The filled (convex) triangle spanned by three points. -/
def triSet (a b c : Vec3d) : Set Vec3d :=
  {x | ∃ α β γ : ℚ, 0 ≤ α ∧ 0 ≤ β ∧ 0 ≤ γ ∧ α + β + γ = 1 ∧ x = combo3 α β γ a b c}

/-- The portion of the filled input triangle lying in `pl`'s inside
half-space (`dot(p - point, normal) ≥ 0`). -/
def insidePart (pl : Plane) (tri : Triangle) : Set Vec3d :=
  {x ∈ triSet tri.v0 tri.v1 tri.v2 | 0 ≤ pl.distance x}

lemma vecExt (v w : Vec3d) (h1 : Vec3d.x v = Vec3d.x w) (h2 : Vec3d.y v = Vec3d.y w)
    (h3 : Vec3d.z v = Vec3d.z w) : v = w :=
  Prod.ext h1 (Prod.ext h2 h3)

lemma from_vec4d_make_point_4d (u : Vec3d) :
    Vec3d.from_vec4d (Vec3d.make_point_4d u) = u := rfl

/-- `Plane::intersection` lands at the affine combination of its endpoints
with parameter `k = d(s)/(d(s) − d(e))` (the `p·n` terms cancel in `k`'s
numerator's difference). -/
lemma intersection_combo (pl : Plane) (s e : Vec3d)
    (h : pl.distance s - pl.distance e ≠ 0) :
    (pl.intersection s e).1 =
      combo2 (1 - pl.distance s / (pl.distance s - pl.distance e))
        (pl.distance s / (pl.distance s - pl.distance e)) s e := by
  have h' : Vec3d.dot s pl.normal - Vec3d.dot e pl.normal ≠ 0 := by
    intro hz
    apply h
    unfold Plane.distance
    linarith [hz]
  refine vecExt _ _ ?_ ?_ ?_ <;>
    simp only [Plane.intersection, Plane.distance, combo2, Vec3d.add, Vec3d.sub,
      Vec3d.smul, Vec3d.dot, Vec3d.new, Vec3d.x, Vec3d.y, Vec3d.z] <;>
    field_simp <;>
    ring

/-- `Plane::distance` is affine in barycentric coordinates. -/
lemma distance_combo3 (pl : Plane) (a b c : Vec3d) (α β γ : ℚ)
    (hsum : α + β + γ = 1) :
    pl.distance (combo3 α β γ a b c) =
      α * pl.distance a + β * pl.distance b + γ * pl.distance c := by
  unfold Plane.distance combo3 Vec3d.add Vec3d.smul Vec3d.dot Vec3d.new
    Vec3d.x Vec3d.y Vec3d.z
  linear_combination (pl.point.1 * pl.normal.1 + pl.point.2.1 * pl.normal.2.1 +
    pl.point.2.2 * pl.normal.2.2) * hsum

/-- `Plane::distance` is affine along a segment. -/
lemma distance_combo2 (pl : Plane) (a b : Vec3d) (α β : ℚ) (hsum : α + β = 1) :
    pl.distance (combo2 α β a b) = α * pl.distance a + β * pl.distance b := by
  unfold Plane.distance combo2 Vec3d.add Vec3d.smul Vec3d.dot Vec3d.new
    Vec3d.x Vec3d.y Vec3d.z
  linear_combination (pl.point.1 * pl.normal.1 + pl.point.2.1 * pl.normal.2.1 +
    pl.point.2.2 * pl.normal.2.2) * hsum

/-- The clip intersection point lies on the plane. -/
lemma distance_intersection (pl : Plane) (s e : Vec3d)
    (h : pl.distance s - pl.distance e ≠ 0) :
    pl.distance (pl.intersection s e).1 = 0 := by
  rw [intersection_combo pl s e h, distance_combo2 _ _ _ _ _ (by ring)]
  field_simp
  ring

/-- The flipped plane meets a segment at the same point (numerator and
denominator of `k` are both negated). -/
lemma flipPlane_intersection (pl : Plane) (s e : Vec3d) :
    ((flipPlane pl).intersection s e).1 = (pl.intersection s e).1 := by
  have hnum : Vec3d.dot s (Vec3d.neg pl.normal) - Vec3d.dot pl.point (Vec3d.neg pl.normal) =
      -(Vec3d.dot s pl.normal - Vec3d.dot pl.point pl.normal) := by
    unfold Vec3d.dot Vec3d.neg Vec3d.new Vec3d.x Vec3d.y Vec3d.z
    ring
  have hden : Vec3d.dot s (Vec3d.neg pl.normal) - Vec3d.dot e (Vec3d.neg pl.normal) =
      -(Vec3d.dot s pl.normal - Vec3d.dot e pl.normal) := by
    unfold Vec3d.dot Vec3d.neg Vec3d.new Vec3d.x Vec3d.y Vec3d.z
    ring
  have hk : (Vec3d.dot s (Vec3d.neg pl.normal) - Vec3d.dot pl.point (Vec3d.neg pl.normal)) /
        (Vec3d.dot s (Vec3d.neg pl.normal) - Vec3d.dot e (Vec3d.neg pl.normal)) =
      (Vec3d.dot s pl.normal - Vec3d.dot pl.point pl.normal) /
        (Vec3d.dot s pl.normal - Vec3d.dot e pl.normal) := by
    rw [hnum, hden, neg_div_neg_eq]
  simp only [Plane.intersection, flipPlane]
  rw [hk]

/-- Twice the vector area of the triangle `(a, b, c)`: the cross product of
its two edges from `a` (the quantity `Triangle::calculate_normal`
normalizes). -/
def areaVec3 (a b c : Vec3d) : Vec3d :=
  Vec3d.cross (Vec3d.sub b a) (Vec3d.sub c a)

/-- Twice the vector area of a `Triangle` (3-D parts of its points). -/
def doubleAreaVec (t : Triangle) : Vec3d := areaVec3 t.v0 t.v1 t.v2

lemma dot_self_nonneg (v : Vec3d) : 0 ≤ Vec3d.dot v v :=
  add_nonneg (add_nonneg (mul_self_nonneg _) (mul_self_nonneg _)) (mul_self_nonneg _)

lemma combo3_perm12 (α β γ : ℚ) (a b c : Vec3d) :
    combo3 α β γ a b c = combo3 β α γ b a c := by
  refine vecExt _ _ ?_ ?_ ?_ <;>
    simp only [combo3, Vec3d.add, Vec3d.smul, Vec3d.new, Vec3d.x, Vec3d.y, Vec3d.z] <;>
    ring

lemma combo3_rot (α β γ : ℚ) (a b c : Vec3d) :
    combo3 α β γ a b c = combo3 β γ α b c a := by
  refine vecExt _ _ ?_ ?_ ?_ <;>
    simp only [combo3, Vec3d.add, Vec3d.smul, Vec3d.new, Vec3d.x, Vec3d.y, Vec3d.z] <;>
    ring

lemma triSet_comm12 (a b c : Vec3d) : triSet a b c = triSet b a c := by
  ext x
  constructor
  · rintro ⟨α, β, γ, h1, h2, h3, hs, rfl⟩
    exact ⟨β, α, γ, h2, h1, h3, by linarith, combo3_perm12 α β γ a b c⟩
  · rintro ⟨α, β, γ, h1, h2, h3, hs, rfl⟩
    exact ⟨β, α, γ, h2, h1, h3, by linarith, combo3_perm12 α β γ b a c⟩

lemma triSet_rot (a b c : Vec3d) : triSet a b c = triSet b c a := by
  ext x
  constructor
  · rintro ⟨α, β, γ, h1, h2, h3, hs, rfl⟩
    exact ⟨β, γ, α, h2, h3, h1, by linarith, combo3_rot α β γ a b c⟩
  · rintro ⟨α, β, γ, h1, h2, h3, hs, rfl⟩
    refine ⟨γ, α, β, h3, h1, h2, by linarith, ?_⟩
    rw [combo3_rot γ α β a b c]

lemma combo3_perm23 (α β γ : ℚ) (a b c : Vec3d) :
    combo3 α β γ a b c = combo3 α γ β a c b := by
  refine vecExt _ _ ?_ ?_ ?_ <;>
    simp only [combo3, Vec3d.add, Vec3d.smul, Vec3d.new, Vec3d.x, Vec3d.y, Vec3d.z] <;>
    ring

lemma triSet_comm23 (a b c : Vec3d) : triSet a b c = triSet a c b := by
  ext x
  constructor
  · rintro ⟨α, β, γ, h1, h2, h3, hs, rfl⟩
    exact ⟨α, γ, β, h1, h3, h2, by linarith, combo3_perm23 α β γ a b c⟩
  · rintro ⟨α, β, γ, h1, h2, h3, hs, rfl⟩
    exact ⟨α, γ, β, h1, h3, h2, by linarith, combo3_perm23 α β γ a c b⟩

lemma listUnion_nil (f : Triangle → Set Vec3d) :
    (⋃ t' ∈ ([] : List Triangle), f t') = ∅ := by
  simp

lemma listUnion_cons (x : Triangle) (l : List Triangle) (f : Triangle → Set Vec3d) :
    (⋃ t' ∈ x :: l, f t') = f x ∪ ⋃ t' ∈ l, f t' := by
  simp [List.mem_cons, Set.iUnion_or, Set.iUnion_union_distrib]

lemma areaVec3_swap01 (a b c : Vec3d) :
    areaVec3 b a c = Vec3d.neg (areaVec3 a b c) := by
  refine vecExt _ _ ?_ ?_ ?_ <;>
    simp only [areaVec3, Vec3d.cross, Vec3d.sub, Vec3d.neg, Vec3d.new,
      Vec3d.x, Vec3d.y, Vec3d.z] <;>
    ring

lemma areaVec3_rot (a b c : Vec3d) : areaVec3 b c a = areaVec3 a b c := by
  refine vecExt _ _ ?_ ?_ ?_ <;>
    simp only [areaVec3, Vec3d.cross, Vec3d.sub, Vec3d.new,
      Vec3d.x, Vec3d.y, Vec3d.z] <;>
    ring

lemma dot_neg_right (w u : Vec3d) :
    Vec3d.dot w (Vec3d.neg u) = -Vec3d.dot w u := by
  simp only [Vec3d.dot, Vec3d.neg, Vec3d.new, Vec3d.x, Vec3d.y, Vec3d.z]
  ring

lemma dot_neg_neg (u : Vec3d) :
    Vec3d.dot (Vec3d.neg u) (Vec3d.neg u) = Vec3d.dot u u := by
  simp only [Vec3d.dot, Vec3d.neg, Vec3d.new, Vec3d.x, Vec3d.y, Vec3d.z]
  ring

/-- The inside sub-triangle `(a, a + k₁(b−a), a + k₂(c−a))` has `k₁k₂` times
the doubled area of `(a, b, c)` (projected on the area vector). -/
lemma areaDot_one_inside (a b c : Vec3d) (k1 k2 : ℚ) :
    Vec3d.dot (areaVec3 a (combo2 (1 - k1) k1 a b) (combo2 (1 - k2) k2 a c))
      (areaVec3 a b c) =
    k1 * k2 * Vec3d.dot (areaVec3 a b c) (areaVec3 a b c) := by
  simp only [areaVec3, combo2, Vec3d.cross, Vec3d.sub, Vec3d.add, Vec3d.smul,
    Vec3d.dot, Vec3d.new, Vec3d.x, Vec3d.y, Vec3d.z]
  ring

/-- First triangle of the 2-inside split, projected on the area vector. -/
lemma areaDot_quad1 (a b c : Vec3d) (u : ℚ) :
    Vec3d.dot (areaVec3 b (combo2 (1 - u) u b a) c) (areaVec3 a b c) =
    -(u * Vec3d.dot (areaVec3 a b c) (areaVec3 a b c)) := by
  simp only [areaVec3, combo2, Vec3d.cross, Vec3d.sub, Vec3d.add, Vec3d.smul,
    Vec3d.dot, Vec3d.new, Vec3d.x, Vec3d.y, Vec3d.z]
  ring

/-- Second triangle of the 2-inside split, projected on the area vector. -/
lemma areaDot_quad2 (a b c : Vec3d) (u s : ℚ) :
    Vec3d.dot (areaVec3 (combo2 (1 - u) u b a) (combo2 (1 - s) s c a) c)
      (areaVec3 a b c) =
    -(s * (1 - u) * Vec3d.dot (areaVec3 a b c) (areaVec3 a b c)) := by
  simp only [areaVec3, combo2, Vec3d.cross, Vec3d.sub, Vec3d.add, Vec3d.smul,
    Vec3d.dot, Vec3d.new, Vec3d.x, Vec3d.y, Vec3d.z]
  ring

/-- Exact area split of a triangle by a plane with one vertex strictly
inside and two strictly outside: the inside output triangle of `clip` plus
the two outside ones (emitted by `clip` against the flipped plane) carry
exactly the doubled area of the whole triangle, measured as `|· ⬝ N|`. -/
lemma clip_area_split (pl : Plane) (a b c : Vec3d)
    (ha : 0 < pl.distance a) (hb : pl.distance b < 0) (hc : pl.distance c < 0) :
    |Vec3d.dot (areaVec3 a (pl.intersection a b).1 (pl.intersection a c).1)
        (areaVec3 a b c)| +
      (|Vec3d.dot (areaVec3 b (pl.intersection b a).1 c) (areaVec3 a b c)| +
       |Vec3d.dot (areaVec3 (pl.intersection b a).1 (pl.intersection c a).1 c)
          (areaVec3 a b c)|) =
    Vec3d.dot (areaVec3 a b c) (areaVec3 a b c) := by
  have hab : pl.distance a - pl.distance b ≠ 0 := ne_of_gt (by linarith)
  have hac : pl.distance a - pl.distance c ≠ 0 := ne_of_gt (by linarith)
  have hba : pl.distance b - pl.distance a ≠ 0 := ne_of_lt (by linarith)
  have hca : pl.distance c - pl.distance a ≠ 0 := ne_of_lt (by linarith)
  rw [intersection_combo pl a b hab, intersection_combo pl a c hac,
    intersection_combo pl b a hba, intersection_combo pl c a hca,
    areaDot_one_inside, areaDot_quad1, areaDot_quad2]
  have hX0 : 0 ≤ Vec3d.dot (areaVec3 a b c) (areaVec3 a b c) := dot_self_nonneg _
  have hk1 : 0 < pl.distance a / (pl.distance a - pl.distance b) :=
    div_pos ha (by linarith)
  have hk2 : 0 < pl.distance a / (pl.distance a - pl.distance c) :=
    div_pos ha (by linarith)
  have hu : 0 < pl.distance b / (pl.distance b - pl.distance a) :=
    div_pos_iff.mpr (Or.inr ⟨hb, by linarith⟩)
  have hueq : pl.distance b / (pl.distance b - pl.distance a) =
      (-pl.distance b) / (pl.distance a - pl.distance b) := by
    rw [div_eq_div_iff hba (by linarith : pl.distance a - pl.distance b ≠ 0)]
    ring
  have hu1 : pl.distance b / (pl.distance b - pl.distance a) ≤ 1 := by
    rw [hueq]
    exact (div_le_one (by linarith)).mpr (by linarith)
  have hs : 0 < pl.distance c / (pl.distance c - pl.distance a) :=
    div_pos_iff.mpr (Or.inr ⟨hc, by linarith⟩)
  rw [abs_of_nonneg (mul_nonneg (mul_nonneg hk1.le hk2.le) hX0),
    abs_neg, abs_of_nonneg (mul_nonneg hu.le hX0),
    abs_neg, abs_of_nonneg (mul_nonneg (mul_nonneg hs.le (by linarith)) hX0)]
  field_simp
  ring

/-- Region identification, 1-inside case: the single output triangle of
`clip` covers exactly the portion of the input triangle inside the
half-space. -/
lemma region_one_inside (pl : Plane) (a b c : Vec3d)
    (ha : 0 < pl.distance a) (hb : pl.distance b < 0) (hc : pl.distance c < 0) :
    triSet a (pl.intersection a b).1 (pl.intersection a c).1 =
      {x ∈ triSet a b c | 0 ≤ pl.distance x} := by
  have hab : pl.distance a - pl.distance b ≠ 0 := ne_of_gt (by linarith)
  have hac : pl.distance a - pl.distance c ≠ 0 := ne_of_gt (by linarith)
  have hdA : pl.distance a ≠ 0 := ne_of_gt ha
  have hk1 : 0 < pl.distance a / (pl.distance a - pl.distance b) :=
    div_pos ha (by linarith)
  have hk1le : pl.distance a / (pl.distance a - pl.distance b) ≤ 1 :=
    (div_le_one (by linarith)).mpr (by linarith)
  have hk2 : 0 < pl.distance a / (pl.distance a - pl.distance c) :=
    div_pos ha (by linarith)
  have hk2le : pl.distance a / (pl.distance a - pl.distance c) ≤ 1 :=
    (div_le_one (by linarith)).mpr (by linarith)
  have hdI1 : pl.distance (combo2 (1 - pl.distance a / (pl.distance a - pl.distance b))
      (pl.distance a / (pl.distance a - pl.distance b)) a b) = 0 := by
    rw [distance_combo2 _ _ _ _ _ (by ring)]
    field_simp
    ring
  have hdI2 : pl.distance (combo2 (1 - pl.distance a / (pl.distance a - pl.distance c))
      (pl.distance a / (pl.distance a - pl.distance c)) a c) = 0 := by
    rw [distance_combo2 _ _ _ _ _ (by ring)]
    field_simp
    ring
  rw [intersection_combo pl a b hab, intersection_combo pl a c hac]
  ext x
  constructor
  · rintro ⟨α, β, γ, h1, h2, h3, hs, rfl⟩
    refine ⟨⟨α + β * (1 - pl.distance a / (pl.distance a - pl.distance b)) +
        γ * (1 - pl.distance a / (pl.distance a - pl.distance c)),
      β * (pl.distance a / (pl.distance a - pl.distance b)),
      γ * (pl.distance a / (pl.distance a - pl.distance c)), ?_, ?_, ?_, ?_, ?_⟩, ?_⟩
    · have t1 : 0 ≤ β * (1 - pl.distance a / (pl.distance a - pl.distance b)) :=
        mul_nonneg h2 (by linarith)
      have t2 : 0 ≤ γ * (1 - pl.distance a / (pl.distance a - pl.distance c)) :=
        mul_nonneg h3 (by linarith)
      linarith
    · exact mul_nonneg h2 hk1.le
    · exact mul_nonneg h3 hk2.le
    · linear_combination hs
    · refine vecExt _ _ ?_ ?_ ?_ <;>
        simp only [combo3, combo2, Vec3d.add, Vec3d.smul, Vec3d.new,
          Vec3d.x, Vec3d.y, Vec3d.z] <;>
        ring
    · rw [distance_combo3 _ _ _ _ _ _ _ hs, hdI1, hdI2]
      have := mul_nonneg h1 ha.le
      linarith
  · rintro ⟨⟨α, β, γ, h1, h2, h3, hs, rfl⟩, hd⟩
    rw [distance_combo3 pl a b c α β γ hs] at hd
    refine ⟨(α * pl.distance a + β * pl.distance b + γ * pl.distance c) / pl.distance a,
      β * (pl.distance a - pl.distance b) / pl.distance a,
      γ * (pl.distance a - pl.distance c) / pl.distance a, ?_, ?_, ?_, ?_, ?_⟩
    · exact div_nonneg hd ha.le
    · exact div_nonneg (mul_nonneg h2 (by linarith)) ha.le
    · exact div_nonneg (mul_nonneg h3 (by linarith)) ha.le
    · field_simp
      linear_combination pl.distance a * hs
    · refine vecExt _ _ ?_ ?_ ?_ <;>
        simp only [combo3, combo2, Vec3d.add, Vec3d.smul, Vec3d.new,
          Vec3d.x, Vec3d.y, Vec3d.z] <;>
        field_simp <;>
        ring

set_option maxHeartbeats 1600000 in
/-- Region identification, 2-inside case: the union of the two output
triangles of `clip` (the diagonal split of the inside quadrilateral) covers
exactly the portion of the input triangle inside the half-space. -/
lemma region_two_inside (pl : Plane) (a b c : Vec3d)
    (ha : 0 < pl.distance a) (hb : 0 < pl.distance b) (hc : pl.distance c < 0) :
    (triSet a (pl.intersection a c).1 b ∪
      triSet (pl.intersection a c).1 (pl.intersection b c).1 b) =
      {x ∈ triSet a b c | 0 ≤ pl.distance x} := by
  have hac : pl.distance a - pl.distance c ≠ 0 := ne_of_gt (by linarith)
  have hbc : pl.distance b - pl.distance c ≠ 0 := ne_of_gt (by linarith)
  have hdA : pl.distance a ≠ 0 := ne_of_gt ha
  have hdB : pl.distance b ≠ 0 := ne_of_gt hb
  have hdC : pl.distance c ≠ 0 := ne_of_lt hc
  have hk : 0 < pl.distance a / (pl.distance a - pl.distance c) :=
    div_pos ha (by linarith)
  have hkle : pl.distance a / (pl.distance a - pl.distance c) ≤ 1 :=
    (div_le_one (by linarith)).mpr (by linarith)
  have hm : 0 < pl.distance b / (pl.distance b - pl.distance c) :=
    div_pos hb (by linarith)
  have hmle : pl.distance b / (pl.distance b - pl.distance c) ≤ 1 :=
    (div_le_one (by linarith)).mpr (by linarith)
  have hdIac : pl.distance (combo2 (1 - pl.distance a / (pl.distance a - pl.distance c))
      (pl.distance a / (pl.distance a - pl.distance c)) a c) = 0 := by
    rw [distance_combo2 _ _ _ _ _ (by ring)]
    field_simp
    ring
  have hdIbc : pl.distance (combo2 (1 - pl.distance b / (pl.distance b - pl.distance c))
      (pl.distance b / (pl.distance b - pl.distance c)) b c) = 0 := by
    rw [distance_combo2 _ _ _ _ _ (by ring)]
    field_simp
    ring
  rw [intersection_combo pl a c hac, intersection_combo pl b c hbc]
  ext x
  constructor
  · rintro (⟨α, β, γ, h1, h2, h3, hs, rfl⟩ | ⟨α, β, γ, h1, h2, h3, hs, rfl⟩)
    · refine ⟨⟨α + β * (1 - pl.distance a / (pl.distance a - pl.distance c)), γ,
        β * (pl.distance a / (pl.distance a - pl.distance c)), ?_, h3, ?_, ?_, ?_⟩, ?_⟩
      · have := mul_nonneg h2 (by linarith :
          (0:ℚ) ≤ 1 - pl.distance a / (pl.distance a - pl.distance c))
        linarith
      · exact mul_nonneg h2 hk.le
      · linear_combination hs
      · refine vecExt _ _ ?_ ?_ ?_ <;>
          simp only [combo3, combo2, Vec3d.add, Vec3d.smul, Vec3d.new,
            Vec3d.x, Vec3d.y, Vec3d.z] <;>
          ring
      · rw [distance_combo3 _ _ _ _ _ _ _ hs, hdIac]
        have t1 := mul_nonneg h1 ha.le
        have t2 := mul_nonneg h3 hb.le
        linarith
    · refine ⟨⟨α * (1 - pl.distance a / (pl.distance a - pl.distance c)),
        β * (1 - pl.distance b / (pl.distance b - pl.distance c)) + γ,
        α * (pl.distance a / (pl.distance a - pl.distance c)) +
          β * (pl.distance b / (pl.distance b - pl.distance c)), ?_, ?_, ?_, ?_, ?_⟩, ?_⟩
      · exact mul_nonneg h1 (by linarith)
      · have := mul_nonneg h2 (by linarith :
          (0:ℚ) ≤ 1 - pl.distance b / (pl.distance b - pl.distance c))
        linarith
      · have t1 := mul_nonneg h1 hk.le
        have t2 := mul_nonneg h2 hm.le
        linarith
      · linear_combination hs
      · refine vecExt _ _ ?_ ?_ ?_ <;>
          simp only [combo3, combo2, Vec3d.add, Vec3d.smul, Vec3d.new,
            Vec3d.x, Vec3d.y, Vec3d.z] <;>
          ring
      · rw [distance_combo3 _ _ _ _ _ _ _ hs, hdIac, hdIbc]
        have := mul_nonneg h3 hb.le
        linarith
  · rintro ⟨⟨α, β, γ, h1, h2, h3, hs, rfl⟩, hd⟩
    rw [distance_combo3 pl a b c α β γ hs] at hd
    by_cases hE : 0 ≤ α * pl.distance a + γ * pl.distance c
    · left
      refine ⟨(α * pl.distance a + γ * pl.distance c) / pl.distance a,
        γ * (pl.distance a - pl.distance c) / pl.distance a, β, ?_, ?_, h2, ?_, ?_⟩
      · exact div_nonneg hE ha.le
      · exact div_nonneg (mul_nonneg h3 (by linarith)) ha.le
      · field_simp
        linear_combination pl.distance a * hs
      · refine vecExt _ _ ?_ ?_ ?_ <;>
          simp only [combo3, combo2, Vec3d.add, Vec3d.smul, Vec3d.new,
            Vec3d.x, Vec3d.y, Vec3d.z] <;>
          field_simp <;>
          ring
    · right
      have hE' : 0 < -(α * pl.distance a + γ * pl.distance c) := by linarith
      refine ⟨-(α * (pl.distance a - pl.distance c) / pl.distance c),
        (α * pl.distance a + γ * pl.distance c) * (pl.distance b - pl.distance c) /
          (pl.distance c * pl.distance b),
        (α * pl.distance a + β * pl.distance b + γ * pl.distance c) / pl.distance b,
        ?_, ?_, ?_, ?_, ?_⟩
      · refine neg_nonneg.mpr (div_nonpos_iff.mpr (Or.inl ⟨?_, hc.le⟩))
        exact mul_nonneg h1 (by linarith)
      · refine div_nonneg_iff.mpr (Or.inr ⟨?_, ?_⟩)
        · nlinarith [mul_pos hE' (show (0:ℚ) < pl.distance b - pl.distance c by linarith)]
        · nlinarith [mul_pos hb (neg_pos.mpr hc)]
      · exact div_nonneg hd hb.le
      · field_simp
        first
          | linear_combination (pl.distance b * pl.distance c) * hs
          | linear_combination (-(pl.distance b * pl.distance c)) * hs
          | linear_combination (pl.distance b ^ 2 * pl.distance c) * hs
          | linear_combination (pl.distance b * pl.distance c ^ 2) * hs
          | linear_combination (pl.distance b ^ 2 * pl.distance c ^ 2) * hs
      · refine vecExt _ _ ?_ ?_ ?_ <;>
          simp only [combo3, combo2, Vec3d.add, Vec3d.smul, Vec3d.new,
            Vec3d.x, Vec3d.y, Vec3d.z] <;>
          field_simp <;>
          ring

/-- The vertices of a clip-output triangle built from `make_point_4d` points
are those 3-D points back again. -/
lemma new_v0 (col : Color) (p q r : Vec4d) :
    (Triangle.new col p q r).v0 = Vec3d.from_vec4d p := rfl

lemma new_v1 (col : Color) (p q r : Vec4d) :
    (Triangle.new col p q r).v1 = Vec3d.from_vec4d q := rfl

lemma new_v2 (col : Color) (p q r : Vec4d) :
    (Triangle.new col p q r).v2 = Vec3d.from_vec4d r := rfl

/-- With all three vertices strictly outside, no part of the filled triangle
lies in the inside half-space. -/
lemma region_none (pl : Plane) (a b c : Vec3d) (ha : pl.distance a < 0)
    (hb : pl.distance b < 0) (hc : pl.distance c < 0) :
    {x ∈ triSet a b c | 0 ≤ pl.distance x} = ∅ := by
  ext x
  simp only [Set.mem_sep_iff, Set.mem_empty_iff_false, iff_false, not_and]
  rintro ⟨α, β, γ, h1, h2, h3, hs, rfl⟩ hd
  rw [distance_combo3 pl a b c α β γ hs] at hd
  have t1 : α * pl.distance a ≤ 0 := mul_nonpos_iff.mpr (Or.inl ⟨h1, ha.le⟩)
  have t2 : β * pl.distance b ≤ 0 := mul_nonpos_iff.mpr (Or.inl ⟨h2, hb.le⟩)
  have t3 : γ * pl.distance c ≤ 0 := mul_nonpos_iff.mpr (Or.inl ⟨h3, hc.le⟩)
  have e1 : α * pl.distance a = 0 := by linarith
  have e2 : β * pl.distance b = 0 := by linarith
  have e3 : γ * pl.distance c = 0 := by linarith
  have hα : α = 0 := (mul_eq_zero.mp e1).resolve_right (ne_of_lt ha)
  have hβ : β = 0 := (mul_eq_zero.mp e2).resolve_right (ne_of_lt hb)
  have hγ : γ = 0 := (mul_eq_zero.mp e3).resolve_right (ne_of_lt hc)
  rw [hα, hβ, hγ] at hs
  norm_num at hs

/-- With all three vertices inside, the whole filled triangle lies in the
inside half-space. -/
lemma region_all (pl : Plane) (a b c : Vec3d) (ha : 0 ≤ pl.distance a)
    (hb : 0 ≤ pl.distance b) (hc : 0 ≤ pl.distance c) :
    {x ∈ triSet a b c | 0 ≤ pl.distance x} = triSet a b c := by
  ext x
  simp only [Set.mem_sep_iff, and_iff_left_iff_imp]
  rintro ⟨α, β, γ, h1, h2, h3, hs, rfl⟩
  rw [distance_combo3 pl a b c α β γ hs]
  have t1 := mul_nonneg h1 ha
  have t2 := mul_nonneg h2 hb
  have t3 := mul_nonneg h3 hc
  linarith

set_option maxHeartbeats 1600000 in
/-- **C5.** Exact clip-area conservation under exact arithmetic, for every
triangle whose three vertices lie strictly off the plane (so, in the 1-inside
and 2-inside cases, the endpoints of each clipped edge are on strictly
opposite sides).  First conjunct (region identification): the union of the
filled output triangles of `Plane::clip` is exactly the portion of the filled
input triangle lying in the inside half-space.  Second conjunct (area
conservation): measuring each triangle by the scalar `|2A(t') ⬝ N|` — its
doubled area vector projected on the input triangle's doubled area vector
`N`, which for coplanar triangles is `2·area(t')·|N|` — the outputs of `clip`
against the plane plus the outputs of `clip` against the flipped plane (the
outside portion) sum exactly to `N ⬝ N = 2·area(T)·|N|`; hence the sum of the
output areas equals the area of the inside portion. -/
theorem C5_clip_area_conservation (pl : Plane) (tri : Triangle)
    (h0 : pl.distance tri.v0 ≠ 0) (h1 : pl.distance tri.v1 ≠ 0)
    (h2 : pl.distance tri.v2 ≠ 0) :
    (⋃ t' ∈ pl.clip tri, triSet t'.v0 t'.v1 t'.v2) = insidePart pl tri ∧
    ((pl.clip tri).map
        (fun t' => |Vec3d.dot (doubleAreaVec t') (doubleAreaVec tri)|)).sum +
      (((flipPlane pl).clip tri).map
        (fun t' => |Vec3d.dot (doubleAreaVec t') (doubleAreaVec tri)|)).sum =
      Vec3d.dot (doubleAreaVec tri) (doubleAreaVec tri) := by
  rcases h0.lt_or_lt with hA | hA <;> rcases h1.lt_or_lt with hB | hB <;>
    rcases h2.lt_or_lt with hC | hC
  · -- (−, −, −): empty inside portion, everything on the flipped side.
    have e1 := Plane.clip_nnn pl tri (not_le.mpr hA) (not_le.mpr hB) (not_le.mpr hC)
    have f1 := Plane.clip_ppp (flipPlane pl) tri
      (by rw [flipPlane_distance]; linarith) (by rw [flipPlane_distance]; linarith)
      (by rw [flipPlane_distance]; linarith)
    refine ⟨?_, ?_⟩
    · rw [e1, listUnion_nil]
      exact (region_none pl tri.v0 tri.v1 tri.v2 hA hB hC).symm
    · rw [e1, f1]
      simp only [List.map_cons, List.map_nil, List.sum_cons, List.sum_nil,
        add_zero, zero_add]
      exact abs_of_nonneg (dot_self_nonneg _)
  · -- (−, −, +): vertex 2 inside.
    have e1 := Plane.clip_nnp pl tri (not_le.mpr hA) (not_le.mpr hB) hC.le
    have f1 := Plane.clip_ppn (flipPlane pl) tri
      (by rw [flipPlane_distance]; linarith) (by rw [flipPlane_distance]; linarith)
      (by rw [flipPlane_distance]; exact not_le.mpr (by linarith))
    simp only [flipPlane_intersection] at f1
    refine ⟨?_, ?_⟩
    · rw [e1]
      simp only [listUnion_cons, listUnion_nil, Set.union_empty,
        new_v0, new_v1, new_v2, from_vec4d_make_point_4d]
      have hr := region_one_inside pl tri.v2 tri.v0 tri.v1 hC hA hB
      rw [triSet_rot tri.v2 tri.v0 tri.v1] at hr
      exact hr
    · have hsplit := clip_area_split pl tri.v2 tri.v0 tri.v1 hC hA hB
      rw [← areaVec3_rot tri.v2 tri.v0 tri.v1] at hsplit
      rw [e1, f1]
      simp only [List.map_cons, List.map_nil, List.sum_cons, List.sum_nil, add_zero,
        doubleAreaVec, new_v0, new_v1, new_v2, from_vec4d_make_point_4d]
      linarith [hsplit]
  · -- (−, +, −): vertex 1 inside.
    have e1 := Plane.clip_npn pl tri (not_le.mpr hA) hB.le (not_le.mpr hC)
    have f1 := Plane.clip_pnp (flipPlane pl) tri
      (by rw [flipPlane_distance]; linarith)
      (by rw [flipPlane_distance]; exact not_le.mpr (by linarith))
      (by rw [flipPlane_distance]; linarith)
    simp only [flipPlane_intersection] at f1
    refine ⟨?_, ?_⟩
    · rw [e1]
      simp only [listUnion_cons, listUnion_nil, Set.union_empty,
        new_v0, new_v1, new_v2, from_vec4d_make_point_4d]
      have hr := region_one_inside pl tri.v1 tri.v0 tri.v2 hB hA hC
      rw [triSet_comm12 tri.v1 tri.v0 tri.v2] at hr
      exact hr
    · have hsplit := clip_area_split pl tri.v1 tri.v0 tri.v2 hB hA hC
      rw [areaVec3_swap01 tri.v0 tri.v1 tri.v2] at hsplit
      rw [dot_neg_neg] at hsplit
      simp only [dot_neg_right, abs_neg] at hsplit
      rw [e1, f1]
      simp only [List.map_cons, List.map_nil, List.sum_cons, List.sum_nil, add_zero,
        doubleAreaVec, new_v0, new_v1, new_v2, from_vec4d_make_point_4d]
      linarith [hsplit]
  · -- (−, +, +): vertices 1 and 2 inside.
    have e1 := Plane.clip_npp pl tri (not_le.mpr hA) hB.le hC.le
    have f1 := Plane.clip_pnn (flipPlane pl) tri
      (by rw [flipPlane_distance]; linarith)
      (by rw [flipPlane_distance]; exact not_le.mpr (by linarith))
      (by rw [flipPlane_distance]; exact not_le.mpr (by linarith))
    simp only [flipPlane_intersection] at f1
    refine ⟨?_, ?_⟩
    · rw [e1]
      simp only [listUnion_cons, listUnion_nil, Set.union_empty,
        new_v0, new_v1, new_v2, from_vec4d_make_point_4d]
      have hr := region_two_inside pl tri.v1 tri.v2 tri.v0 hB hC hA
      rw [← triSet_rot tri.v0 tri.v1 tri.v2] at hr
      exact hr
    · have hsplit := clip_area_split (flipPlane pl) tri.v0 tri.v1 tri.v2
        (by rw [flipPlane_distance]; linarith) (by rw [flipPlane_distance]; linarith)
        (by rw [flipPlane_distance]; linarith)
      simp only [flipPlane_intersection] at hsplit
      rw [e1, f1]
      simp only [List.map_cons, List.map_nil, List.sum_cons, List.sum_nil, add_zero,
        doubleAreaVec, new_v0, new_v1, new_v2, from_vec4d_make_point_4d]
      linarith [hsplit]
  · -- (+, −, −): vertex 0 inside.
    have e1 := Plane.clip_pnn pl tri hA.le (not_le.mpr hB) (not_le.mpr hC)
    have f1 := Plane.clip_npp (flipPlane pl) tri
      (by rw [flipPlane_distance]; exact not_le.mpr (by linarith))
      (by rw [flipPlane_distance]; linarith) (by rw [flipPlane_distance]; linarith)
    simp only [flipPlane_intersection] at f1
    refine ⟨?_, ?_⟩
    · rw [e1]
      simp only [listUnion_cons, listUnion_nil, Set.union_empty,
        new_v0, new_v1, new_v2, from_vec4d_make_point_4d]
      exact region_one_inside pl tri.v0 tri.v1 tri.v2 hA hB hC
    · have hsplit := clip_area_split pl tri.v0 tri.v1 tri.v2 hA hB hC
      rw [e1, f1]
      simp only [List.map_cons, List.map_nil, List.sum_cons, List.sum_nil, add_zero,
        doubleAreaVec, new_v0, new_v1, new_v2, from_vec4d_make_point_4d]
      linarith [hsplit]
  · -- (+, −, +): vertices 0 and 2 inside.
    have e1 := Plane.clip_pnp pl tri hA.le (not_le.mpr hB) hC.le
    have f1 := Plane.clip_npn (flipPlane pl) tri
      (by rw [flipPlane_distance]; exact not_le.mpr (by linarith))
      (by rw [flipPlane_distance]; linarith)
      (by rw [flipPlane_distance]; exact not_le.mpr (by linarith))
    simp only [flipPlane_intersection] at f1
    refine ⟨?_, ?_⟩
    · rw [e1]
      simp only [listUnion_cons, listUnion_nil, Set.union_empty,
        new_v0, new_v1, new_v2, from_vec4d_make_point_4d]
      have hr := region_two_inside pl tri.v0 tri.v2 tri.v1 hA hC hB
      rw [triSet_comm23 tri.v0 tri.v2 tri.v1] at hr
      exact hr
    · have hsplit := clip_area_split (flipPlane pl) tri.v1 tri.v0 tri.v2
        (by rw [flipPlane_distance]; linarith) (by rw [flipPlane_distance]; linarith)
        (by rw [flipPlane_distance]; linarith)
      simp only [flipPlane_intersection] at hsplit
      rw [areaVec3_swap01 tri.v0 tri.v1 tri.v2] at hsplit
      rw [dot_neg_neg] at hsplit
      simp only [dot_neg_right, abs_neg] at hsplit
      rw [e1, f1]
      simp only [List.map_cons, List.map_nil, List.sum_cons, List.sum_nil, add_zero,
        doubleAreaVec, new_v0, new_v1, new_v2, from_vec4d_make_point_4d]
      linarith [hsplit]
  · -- (+, +, −): vertices 0 and 1 inside.
    have e1 := Plane.clip_ppn pl tri hA.le hB.le (not_le.mpr hC)
    have f1 := Plane.clip_nnp (flipPlane pl) tri
      (by rw [flipPlane_distance]; exact not_le.mpr (by linarith))
      (by rw [flipPlane_distance]; exact not_le.mpr (by linarith))
      (by rw [flipPlane_distance]; linarith)
    simp only [flipPlane_intersection] at f1
    refine ⟨?_, ?_⟩
    · rw [e1]
      simp only [listUnion_cons, listUnion_nil, Set.union_empty,
        new_v0, new_v1, new_v2, from_vec4d_make_point_4d]
      exact region_two_inside pl tri.v0 tri.v1 tri.v2 hA hB hC
    · have hsplit := clip_area_split (flipPlane pl) tri.v2 tri.v0 tri.v1
        (by rw [flipPlane_distance]; linarith) (by rw [flipPlane_distance]; linarith)
        (by rw [flipPlane_distance]; linarith)
      simp only [flipPlane_intersection] at hsplit
      rw [← areaVec3_rot tri.v2 tri.v0 tri.v1] at hsplit
      rw [e1, f1]
      simp only [List.map_cons, List.map_nil, List.sum_cons, List.sum_nil, add_zero,
        doubleAreaVec, new_v0, new_v1, new_v2, from_vec4d_make_point_4d]
      linarith [hsplit]
  · -- (+, +, +): the triangle passes through; the flipped side is empty.
    have e1 := Plane.clip_ppp pl tri hA.le hB.le hC.le
    have f1 := Plane.clip_nnn (flipPlane pl) tri
      (by rw [flipPlane_distance]; exact not_le.mpr (by linarith))
      (by rw [flipPlane_distance]; exact not_le.mpr (by linarith))
      (by rw [flipPlane_distance]; exact not_le.mpr (by linarith))
    refine ⟨?_, ?_⟩
    · rw [e1]
      simp only [listUnion_cons, listUnion_nil, Set.union_empty]
      exact (region_all pl tri.v0 tri.v1 tri.v2 hA.le hB.le hC.le).symm
    · rw [e1, f1]
      simp only [List.map_cons, List.map_nil, List.sum_cons, List.sum_nil, add_zero]
      exact abs_of_nonneg (dot_self_nonneg _)

/-- Witness for C5: at the concrete 1-inside configuration (plane `x = 0`,
triangle with vertex distances `1, -1, -1`) the hypotheses hold and the area
conservation identity is obtained from the theorem. -/
theorem C5_clip_area_conservation_witness :
    (Plane.distance ⟨(1, 0, 0), (0, 0, 0)⟩
        (Triangle.v0 ⟨⟨1, 1, 1, 1⟩, (1, 0, 0, 1), (-1, 0, 0, 1), (-1, 2, 0, 1)⟩) ≠ 0 ∧
     Plane.distance ⟨(1, 0, 0), (0, 0, 0)⟩
        (Triangle.v1 ⟨⟨1, 1, 1, 1⟩, (1, 0, 0, 1), (-1, 0, 0, 1), (-1, 2, 0, 1)⟩) ≠ 0 ∧
     Plane.distance ⟨(1, 0, 0), (0, 0, 0)⟩
        (Triangle.v2 ⟨⟨1, 1, 1, 1⟩, (1, 0, 0, 1), (-1, 0, 0, 1), (-1, 2, 0, 1)⟩) ≠ 0) ∧
    ((Plane.clip ⟨(1, 0, 0), (0, 0, 0)⟩
          ⟨⟨1, 1, 1, 1⟩, (1, 0, 0, 1), (-1, 0, 0, 1), (-1, 2, 0, 1)⟩).map
        (fun t' => |Vec3d.dot (doubleAreaVec t')
          (doubleAreaVec ⟨⟨1, 1, 1, 1⟩, (1, 0, 0, 1), (-1, 0, 0, 1), (-1, 2, 0, 1)⟩)|)).sum +
      (((flipPlane ⟨(1, 0, 0), (0, 0, 0)⟩).clip
          ⟨⟨1, 1, 1, 1⟩, (1, 0, 0, 1), (-1, 0, 0, 1), (-1, 2, 0, 1)⟩).map
        (fun t' => |Vec3d.dot (doubleAreaVec t')
          (doubleAreaVec ⟨⟨1, 1, 1, 1⟩, (1, 0, 0, 1), (-1, 0, 0, 1), (-1, 2, 0, 1)⟩)|)).sum =
      Vec3d.dot (doubleAreaVec ⟨⟨1, 1, 1, 1⟩, (1, 0, 0, 1), (-1, 0, 0, 1), (-1, 2, 0, 1)⟩)
        (doubleAreaVec ⟨⟨1, 1, 1, 1⟩, (1, 0, 0, 1), (-1, 0, 0, 1), (-1, 2, 0, 1)⟩) :=
  ⟨⟨by norm_num [Plane.distance, Triangle.v0, Vec3d.from_vec4d, Vec3d.dot, Vec3d.new,
      Vec3d.x, Vec3d.y, Vec3d.z, Vec4d.x, Vec4d.y, Vec4d.z],
    by norm_num [Plane.distance, Triangle.v1, Vec3d.from_vec4d, Vec3d.dot, Vec3d.new,
      Vec3d.x, Vec3d.y, Vec3d.z, Vec4d.x, Vec4d.y, Vec4d.z],
    by norm_num [Plane.distance, Triangle.v2, Vec3d.from_vec4d, Vec3d.dot, Vec3d.new,
      Vec3d.x, Vec3d.y, Vec3d.z, Vec4d.x, Vec4d.y, Vec4d.z]⟩,
   (C5_clip_area_conservation ⟨(1, 0, 0), (0, 0, 0)⟩
      ⟨⟨1, 1, 1, 1⟩, (1, 0, 0, 1), (-1, 0, 0, 1), (-1, 2, 0, 1)⟩
      (by norm_num [Plane.distance, Triangle.v0, Vec3d.from_vec4d, Vec3d.dot, Vec3d.new,
        Vec3d.x, Vec3d.y, Vec3d.z, Vec4d.x, Vec4d.y, Vec4d.z])
      (by norm_num [Plane.distance, Triangle.v1, Vec3d.from_vec4d, Vec3d.dot, Vec3d.new,
        Vec3d.x, Vec3d.y, Vec3d.z, Vec4d.x, Vec4d.y, Vec4d.z])
      (by norm_num [Plane.distance, Triangle.v2, Vec3d.from_vec4d, Vec3d.dot, Vec3d.new,
        Vec3d.x, Vec3d.y, Vec3d.z, Vec4d.x, Vec4d.y, Vec4d.z])).2⟩

end Rust3D
